import Mathlib

/-!
# Verification of the muninn-earthcare product-type plugin

A shallow embedding of `muninn_earthcare.py`: the filename grammars built by
`EOFProduct.__init__` / `EarthCAREProduct` / `AUXProduct`, the matching
(`parse_filename`), identification (`identify`), metadata extraction
(`analyze`, `_analyze_eof_header`, `read_xml_component`) and packaging
(`export_zip`, `compress`) logic.

Modelling conventions:
* Python regexes are embedded as an explicit `Regex` AST containing exactly the
  constructs these grammars use (literals, fixed-count character classes,
  named groups, alternation, an optional group and an end anchor; `re.match`
  anchors at the start only).  The grammars are deterministic (alternatives
  and optional groups are mutually exclusive on their first characters and
  occur only in tail position), so the backtracking-free matcher below agrees
  with Python's leftmost-greedy backtracking semantics on them.  Character
  classes are modelled at ASCII granularity.
* `match.groupdict()` is modelled faithfully: a list over *all* named groups
  of the pattern, an unmatched group being mapped to `none`.
* Exceptions (IndexError, KeyError, TypeError, ValueError, strptime errors,
  missing XML nodes, `zipfile` FileExistsError, assertion failures) are
  modelled as `none` results.
* `datetime.strptime` is modelled with fixed-width digit parsing and basic
  range validation (`1 ≤ month ≤ 12`, `1 ≤ day ≤ 31`, bounds on time fields,
  `year ≥ 1`); day-in-month/leap-year refinements are not needed by any claim.
  `datetime.max` is the distinguished maximal value (microsecond 999999).
* Filesystem reads performed by `read_xml_component` are abstracted into a
  function from the (purely computed) component location to an optional parsed
  XML tree; `os.path.isdir` is abstracted into a flag carried by each path.
-/

set_option autoImplicit false

/-! ## Character classes and the regex engine -/

/-- The character classes occurring in the grammars: `\w`, `\d`, `[A-Z]`. -/
inductive CClass where
  | word
  | digit
  | upper
  deriving DecidableEq

/-- Class membership (`\w` at ASCII granularity, as used by the grammars). -/
def CClass.matches : CClass → Char → Bool
  | .word, c => c.isAlphanum || c = '_'
  | .digit, c => c.isDigit
  | .upper, c => 'A' ≤ c && c ≤ 'Z'

/-- Consume exactly `n` characters of class `k`, returning the rest. -/
def CClass.matchN (k : CClass) : Nat → List Char → Option (List Char)
  | 0, s => some s
  | _ + 1, [] => none
  | n + 1, c :: s => if k.matches c then k.matchN n s else none

/-- The regex fragment used by the filename grammars.  `re.match` semantics:
anchored at the start, not at the end unless `endAnchor` occurs. -/
inductive Regex where
  | epsilon
  | chr (c : Char)
  | ncls (k : CClass) (n : Nat)
  | seq (a b : Regex)
  | alt (a b : Regex)
  | opt (a : Regex)
  | group (name : String) (a : Regex)
  | endAnchor
  deriving DecidableEq

/-- The matcher: returns the captured named groups and the unconsumed suffix.
Deterministic first-alternative semantics (see the header comment for why this
coincides with Python on these grammars). -/
def Regex.mat : Regex → List Char → Option (List (String × String) × List Char)
  | .epsilon, s => some ([], s)
  | .chr c, s =>
    match s with
    | [] => none
    | x :: t => if x = c then some ([], t) else none
  | .ncls k n, s =>
    match k.matchN n s with
    | some t => some ([], t)
    | none => none
  | .seq a b, s =>
    match a.mat s with
    | some (g1, s1) =>
      match b.mat s1 with
      | some (g2, s2) => some (g1 ++ g2, s2)
      | none => none
    | none => none
  | .alt a b, s =>
    match a.mat s with
    | some r => some r
    | none => b.mat s
  | .opt a, s =>
    match a.mat s with
    | some r => some r
    | none => some ([], s)
  | .group nm a, s =>
    match a.mat s with
    | some (g, t) => some (g ++ [(nm, ⟨s.take (s.length - t.length)⟩)], t)
    | none => none
  | .endAnchor, s =>
    match s with
    | [] => some ([], [])
    | _ :: _ => none

/-- All named groups of a pattern, in definition order (the key set of
Python's `groupdict()`). -/
def Regex.namedGroups : Regex → List String
  | .seq a b => a.namedGroups ++ b.namedGroups
  | .alt a b => a.namedGroups ++ b.namedGroups
  | .opt a => a.namedGroups
  | .group nm a => nm :: a.namedGroups
  | _ => []

/-- Whether a pattern contains any (named) capturing group. -/
def Regex.hasGroups : Regex → Bool
  | .seq a b => a.hasGroups || b.hasGroups
  | .alt a b => a.hasGroups || b.hasGroups
  | .opt a => a.hasGroups
  | .group _ _ => true
  | _ => false

/-- A literal sequence of characters. -/
def slitL (cs : List Char) : Regex :=
  cs.foldr (fun c acc => .seq (.chr c) acc) .epsilon

/-- A literal string (each character matched verbatim; the strings involved
contain no regex metacharacters, and `re.escape` makes literals literal). -/
def slit (s : String) : Regex := slitL s.toList

/-! ## `os.path` helpers (POSIX behaviour, as used by the plugin) -/

/-- `os.path.basename`: everything after the last slash. -/
def basename (p : String) : String :=
  ⟨(p.toList.reverse.takeWhile (fun c => c ≠ '/')).reverse⟩

/-- `os.path.splitext`: split off the extension at the last dot of the last
component, unless that dot only has leading dots before it. -/
def splitext (p : String) : String × String :=
  let cs := p.toList
  let base := (cs.reverse.takeWhile (fun c => c ≠ '/')).reverse
  let dir := cs.take (cs.length - base.length)
  let tl := base.reverse.takeWhile (fun c => c ≠ '.')
  if tl.length = base.length then (p, "")
  else
    let rootLen := base.length - tl.length - 1
    if (base.take rootLen).all (fun c => c = '.') then (p, "")
    else (⟨dir ++ base.take rootLen⟩, ⟨base.drop rootLen⟩)

/-- Two-argument `os.path.join` (POSIX). -/
def pjoin (a b : String) : String :=
  if b.toList.head? = some '/' then b
  else if a = "" || a.toList.getLast? = some '/' then a ++ b
  else a ++ "/" ++ b

/-- `os.path.abspath`, parameterized by the working directory
(`os.path.normpath` collapsing is not modelled; no claim depends on it). -/
def abspath (cwd p : String) : String :=
  if p.toList.head? = some '/' then p else pjoin cwd p

/-- Python's `s[:-n]` for `n > 0`: drop the last `n` characters. -/
def strDropRight (s : String) (n : Nat) : String :=
  ⟨s.toList.take (s.toList.length - n)⟩

/-- Python's `s[2:]`. -/
def strDrop2 (s : String) : String := ⟨s.toList.drop 2⟩

/-! ## The descriptor model (`EOFProduct` and its two subclasses) -/

/-- A candidate filesystem path together with its `os.path.isdir` status. -/
structure FSPath where
  path : String
  isDir : Bool
  deriving DecidableEq

/-- The descriptor built by `EOFProduct.__init__`. -/
structure EOFProduct where
  product_type : String
  extension : Option String
  is_multi_file_product : Bool
  use_enclosing_directory : Bool
  filename_pattern : Regex
  deriving DecidableEq

/-- `EOFProduct.__init__`: derive multiplicity and finish the compiled pattern
according to the zip policy (`zipped = none` means flexible handling). -/
def EOFProduct.init (product_type : String) (filename_base_pattern : Regex)
    (extension : Option String) (zipped : Option Bool) : EOFProduct :=
  let is_multi := extension.isNone
  let pat : Regex :=
    match zipped with
    | none =>
      match extension with
      | none => .seq filename_base_pattern (.opt (.seq (slit ".ZIP") .endAnchor))
      | some ext => .seq filename_base_pattern (.seq (.alt (slit ext) (slit ".ZIP")) .endAnchor)
    | some true => .seq filename_base_pattern (.seq (slit ".ZIP") .endAnchor)
    | some false =>
      match extension with
      | some ext => .seq filename_base_pattern (.seq (slit ext) .endAnchor)
      | none => filename_base_pattern
  { product_type := product_type
    extension := extension
    is_multi_file_product := is_multi
    use_enclosing_directory := is_multi && zipped ≠ some true
    filename_pattern := pat }

/-- `EOFProduct.is_zipped`. -/
def EOFProduct.is_zipped (_p : EOFProduct) (filepath : String) : Bool :=
  ".ZIP".toList.isSuffixOf filepath.toList

/-- `EOFProduct.parse_filename`: match the basename against the compiled
pattern and return `groupdict()` (every named group, unmatched ones `none`). -/
def EOFProduct.parse_filename (p : EOFProduct) (filename : String) :
    Option (List (String × Option String)) :=
  match p.filename_pattern.mat (basename filename).toList with
  | some (g, _) => some (p.filename_pattern.namedGroups.map (fun nm => (nm, g.lookup nm)))
  | none => none

/-- The `for path in paths` loop body of `identify`: false on a directory or a
non-matching basename. -/
def EOFProduct.identifyLoop (p : EOFProduct) : List FSPath → Bool
  | [] => true
  | q :: rest =>
    if q.isDir then false
    else if (p.filename_pattern.mat (basename q.path).toList).isNone then false
    else p.identifyLoop rest

/-- `EOFProduct.identify`.  `none` models the `IndexError` raised by
`paths[0]` on an empty list for a multi-file product. -/
def EOFProduct.identify (p : EOFProduct) (paths : List FSPath) : Option Bool :=
  match paths with
  | [] => if p.is_multi_file_product then none else some false
  | first :: rest =>
    if p.is_multi_file_product && !(p.is_zipped first.path) then
      if (first :: rest).length ≠ 2 then some false
      else some (p.identifyLoop (first :: rest))
    else if (first :: rest).length ≠ 1 then some false
    else if first.isDir then some false
    else some ((p.filename_pattern.mat (basename first.path).toList).isSome)

/-- The timestamp fragment `\d{8}T\d{6}Z`. -/
def tsRegex : Regex :=
  .seq (.ncls .digit 8) (.seq (.chr 'T') (.seq (.ncls .digit 6) (.chr 'Z')))

/-- `r"_".join` on a list of pattern fragments. -/
def joinSep : List Regex → Regex
  | [] => .epsilon
  | [r] => r
  | r :: rest => .seq r (.seq (.chr '_') (joinSep rest))

/-- The pattern fragment list of `EarthCAREProduct.__init__` (the leading `^`
is implicit: the matcher anchors at the start, as `re.match` does). -/
def ecaParts (product_type : String) : List Regex :=
  [slit "ECA",
   .group "file_class" (.ncls .word 4),
   slit product_type,
   .group "validity_start" tsRegex,
   .group "creation_date" tsRegex,
   .seq (.group "orbit_number" (.ncls .digit 5)) (.group "frame_id" (.ncls .upper 1))]

/-- `EarthCAREProduct.__init__`. -/
def EarthCAREProduct (product_type : String) (extension : Option String)
    (zipped : Option Bool) : EOFProduct :=
  EOFProduct.init product_type (joinSep (ecaParts product_type)) extension zipped

/-- The pattern fragment list of `AUXProduct.__init__`. -/
def auxParts (product_type : String) : List Regex :=
  [slit "ECA",
   .group "file_class" (.ncls .word 4),
   slit product_type,
   .group "validity_start" tsRegex,
   .group "validity_stop" tsRegex,
   .group "version" (.ncls .digit 4)]

/-- `AUXProduct.__init__`. -/
def AUXProduct (product_type : String) (zipped : Option Bool) : EOFProduct :=
  EOFProduct.init product_type (joinSep (auxParts product_type)) (some ".EOF") zipped

/-! ## The registry -/

def L0_PRODUCT_TYPES : List String :=
  ["ATL_NOM_0_", "BBR_NOM_0_", "CPR_NOM_0_", "MSI_NOM_0_", "TLM_NOM_0_"]

def L1_PRODUCT_TYPES : List String :=
  ["ATL_NOM_1B", "ATL_DCC_1B", "ATL_CSC_1B", "ATL_FSC_1B",
   "BBR_NOM_1B", "BBR_SNG_1B", "BBR_SOL_1B", "BBR_LIN_1B",
   "CPR_NOM_1B",
   "MSI_NOM_1B", "MSI_BBS_1B", "MSI_SD1_1B", "MSI_SD2_1B", "MSI_DRK_1B",
   "MSI_TRF_1B", "MSI_RGR_1C",
   "AUX_JSG_1D", "AUX_MET_1D"]

def L2_PRODUCT_TYPES : List String :=
  ["ATL_FM__2A", "ATL_ALD_2A", "ATL_CTH_2A", "ATL_AER_2A", "ATL_EBD_2A",
   "ATL_ICE_2A", "ATL_TC__2A",
   "CPR_APC_2A", "CPR_CD__2A", "CPR_CLD_2A", "CPR_FMR_2A", "CPR_TC__2A",
   "MSI_AOT_2A", "MSI_CM__2A", "MSI_COP_2A",
   "AC__TC__2B", "ACM_CAP_2B", "ACM_COM_2B", "ACM_RT__2B",
   "ALL_3D__2B", "ALL_DF__2B",
   "AM__ACD_2B", "AM__CTH_2B", "AM__MO__2B",
   "BM__RAD_2B", "BMA_FLX_2B"]

def GEO_PRODUCT_TYPES : List String := ["GEO_ATTOBS", "GEO_ORBOBS"]

def FOS_PRODUCT_TYPES : List String := ["AUX_ORBPRE", "AUX_ORBRES"]

def MPL_PRODUCT_TYPES : List String := ["MPL_ORBSCT"]

/-- `_product_types` (the keys are pairwise distinct, so the `dict` is
faithfully an association list in construction order). -/
def _product_types : List (String × EOFProduct) :=
  (L0_PRODUCT_TYPES.map fun pt => (pt, EarthCAREProduct pt none none)) ++
  (L1_PRODUCT_TYPES.map fun pt => (pt, EarthCAREProduct pt none none)) ++
  (L2_PRODUCT_TYPES.map fun pt => (pt, EarthCAREProduct pt none none)) ++
  (GEO_PRODUCT_TYPES.map fun pt => (pt, EarthCAREProduct pt (some ".EOF") none)) ++
  (FOS_PRODUCT_TYPES.map fun pt => (pt, AUXProduct pt none)) ++
  (MPL_PRODUCT_TYPES.map fun pt => (pt, AUXProduct pt none))

/-- `product_types()`. -/
def product_types : List String := _product_types.map (fun e => e.1)

/-- `product_type_plugin()`. -/
def product_type_plugin (product_type : String) : Option EOFProduct :=
  (_product_types.lookup product_type)

/-! ## `datetime` values and `strptime` -/

/-- A `datetime.datetime` value. -/
structure DateTime where
  year : Nat
  month : Nat
  day : Nat
  hour : Nat
  minute : Nat
  second : Nat
  microsecond : Nat
  deriving DecidableEq

/-- `datetime.max`. -/
def DateTime.max : DateTime := ⟨9999, 12, 31, 23, 59, 59, 999999⟩

def digitsToNat (cs : List Char) : Nat :=
  cs.foldl (fun a c => a * 10 + (c.toNat - 48)) 0

/-- Shared field validation of `datetime.strptime` + the `datetime`
constructor (day-in-month refinement omitted; see the header comment). -/
def mkDateTime (y mo d h mi sec : Nat) : Option DateTime :=
  if 1 ≤ y && 1 ≤ mo && mo ≤ 12 && 1 ≤ d && d ≤ 31 && h ≤ 23 && mi ≤ 59 && sec ≤ 59 then
    some ⟨y, mo, d, h, mi, sec, 0⟩
  else none

/-- `datetime.strptime(value, "%Y%m%dT%H%M%SZ")`. -/
def strptimeCompact (s : String) : Option DateTime :=
  match s.toList with
  | [y1, y2, y3, y4, mo1, mo2, d1, d2, 'T', h1, h2, mi1, mi2, s1, s2, 'Z'] =>
    if ([y1, y2, y3, y4, mo1, mo2, d1, d2, h1, h2, mi1, mi2, s1, s2].all Char.isDigit) then
      mkDateTime (digitsToNat [y1, y2, y3, y4]) (digitsToNat [mo1, mo2]) (digitsToNat [d1, d2])
        (digitsToNat [h1, h2]) (digitsToNat [mi1, mi2]) (digitsToNat [s1, s2])
    else none
  | _ => none

/-- `datetime.strptime(value, "UTC=%Y-%m-%dT%H:%M:%S")`. -/
def strptimeHeader (s : String) : Option DateTime :=
  match s.toList with
  | ['U', 'T', 'C', '=', y1, y2, y3, y4, '-', mo1, mo2, '-', d1, d2, 'T',
     h1, h2, ':', mi1, mi2, ':', s1, s2] =>
    if ([y1, y2, y3, y4, mo1, mo2, d1, d2, h1, h2, mi1, mi2, s1, s2].all Char.isDigit) then
      mkDateTime (digitsToNat [y1, y2, y3, y4]) (digitsToNat [mo1, mo2]) (digitsToNat [d1, d2])
        (digitsToNat [h1, h2]) (digitsToNat [mi1, mi2]) (digitsToNat [s1, s2])
    else none
  | _ => none

/-- Python `int()` on the all-digit strings captured by the grammars
(sign/whitespace handling is unreachable here and omitted). -/
def pyInt (s : String) : Option Int :=
  if s.toList ≠ [] && s.toList.all Char.isDigit then some (digitsToNat s.toList : Int)
  else none

/-- Python `float()` viewed as a validity check on the coordinate texts
(the numeric value itself is floating point and is not interpreted; the
footprint stores the validated texts). -/
def isFloatLit (s : String) : Bool :=
  let cs := s.toList
  let cs := match cs with
    | '+' :: t => t
    | '-' :: t => t
    | t => t
  let ip := cs.takeWhile Char.isDigit
  match cs.drop ip.length with
  | [] => !ip.isEmpty
  | '.' :: frac => (!ip.isEmpty || !frac.isEmpty) && frac.all Char.isDigit
  | _ => false

/-! ## The XML header document model -/

/-- An `xml.etree.ElementTree` element: tag, text and child elements. -/
inductive XmlNode where
  | elem (tag : String) (text : Option String) (children : List XmlNode)

def XmlNode.tag : XmlNode → String
  | .elem t _ _ => t

def XmlNode.text : XmlNode → Option String
  | .elem _ tx _ => tx

def XmlNode.children : XmlNode → List XmlNode
  | .elem _ _ cs => cs

/-- `Element.find` on a `./A/B/...` path: first match in document order. -/
def findPath (n : XmlNode) : List String → Option XmlNode
  | [] => some n
  | t :: rest =>
    ((n.children.filter (fun c => c.tag = t)).map (fun c => findPath c rest)).foldl
      (fun acc r => match acc with
        | some x => some x
        | none => r) none

/-! ## The metadata record -/

/-- The `core` namespace fields populated by this plugin. -/
structure CoreProps where
  product_name : Option String := none
  validity_start : Option DateTime := none
  validity_stop : Option DateTime := none
  creation_date : Option DateTime := none
  footprint : Option (List (String × String)) := none
  deriving DecidableEq

/-- The `earthcare` namespace fields (all optional in the schema). -/
structure EarthcareProps where
  file_class : Option String := none
  baseline : Option String := none
  orbit_number : Option Int := none
  frame_id : Option String := none
  processing_center : Option String := none
  processor_name : Option String := none
  processor_version : Option String := none
  version_number : Option Int := none
  deriving DecidableEq

/-- The `Struct` returned by `analyze`. -/
structure Properties where
  core : CoreProps
  earthcare : EarthcareProps
  deriving DecidableEq

/-! ## Header extraction (`read_xml_component`, `_analyze_eof_header`) -/

/-- The location `read_xml_component` reads from: either an entry inside a
zip archive, or a plain file path. -/
inductive XmlLocation where
  | zipEntry (zipPath entry : String)
  | plainFile (path : String)
  deriving DecidableEq

/-- The pure path-resolution part of `EOFProduct.read_xml_component`
(lines 235-248); the actual open/parse is abstracted into the `fs` argument
of `analyze`. -/
def read_xml_component_location (p : EOFProduct) (filepath : String)
    (component_path : Option String) : XmlLocation :=
  if p.is_zipped filepath then
    match component_path with
    | none =>
      .zipEntry filepath ((splitext (basename filepath)).1 ++
        (match p.extension with | some ext => ext | none => ""))
    | some cp =>
      if !p.is_multi_file_product then
        .zipEntry filepath (pjoin (splitext (basename filepath)).1 cp)
      else
        .zipEntry filepath cp
  else
    match component_path with
    | some cp => .plainFile (pjoin filepath cp)
    | none => .plainFile filepath

/-- Python's `sub in s` substring test. -/
def containsSub (pat : List Char) : List Char → Bool
  | [] => pat.isEmpty
  | c :: rest => pat.isPrefixOf (c :: rest) || containsSub pat rest

/-- The `start_node_path` selection: wrapper root (`Earth_Explorer_File`)
versus a bare header root. -/
def startNodePath (root : XmlNode) : List String :=
  if containsSub "Earth_Explorer_File".toList root.tag.toList then
    ["Earth_Explorer_Header"]
  else []

/-- The frame start/stop geolocation block (assigned only when
`frameStartCoordinates` is present; missing inner nodes or texts, or
non-float texts, raise). -/
def footprintValues (root : XmlNode) (snp : List String) :
    Option (Option (List (String × String))) :=
  match findPath root (snp ++ ["Variable_Header", "MainProductHeader", "frameStartCoordinates"]) with
  | none => some none
  | some coord =>
    match findPath coord ["GeographicCoordinates", "geographicLatitude"] with
    | none => none
    | some latN =>
      match latN.text with
      | none => none
      | some start_lat =>
        if !isFloatLit start_lat then none else
        match findPath coord ["GeographicCoordinates", "geographicLongitude"] with
        | none => none
        | some lonN =>
          match lonN.text with
          | none => none
          | some start_lon =>
            if !isFloatLit start_lon then none else
            match findPath root (snp ++ ["Variable_Header", "MainProductHeader", "frameStopCoordinates"]) with
            | none => none
            | some coord2 =>
              match findPath coord2 ["GeographicCoordinates", "geographicLatitude"] with
              | none => none
              | some latN2 =>
                match latN2.text with
                | none => none
                | some stop_lat =>
                  if !isFloatLit stop_lat then none else
                  match findPath coord2 ["GeographicCoordinates", "geographicLongitude"] with
                  | none => none
                  | some lonN2 =>
                    match lonN2.text with
                    | none => none
                    | some stop_lon =>
                      if !isFloatLit stop_lon then none else
                      some (some [(start_lon, start_lat), (stop_lon, stop_lat)])

/-- The values `_analyze_eof_header` extracts from the header document. -/
structure HeaderValues where
  validity_start : DateTime
  validity_stop : DateTime
  creation_date : DateTime
  processing_center : Option String
  processor_name : Option String
  processor_version : Option String
  footprint : Option (List (String × String))

/-- The field reads of `_analyze_eof_header` (lines 252-288), in source
order; any missing mandatory node/text or unparsable date raises. -/
def headerValues (root : XmlNode) : Option HeaderValues :=
  let snp := startNodePath root
  match findPath root (snp ++ ["Fixed_Header", "Validity_Period", "Validity_Start"]) with
  | none => none
  | some vsN =>
    match vsN.text with
    | none => none
    | some vsT =>
      match strptimeHeader vsT with
      | none => none
      | some validity_start =>
        match findPath root (snp ++ ["Fixed_Header", "Validity_Period", "Validity_Stop"]) with
        | none => none
        | some stN =>
          match stN.text with
          | none => none
          | some value =>
            match (if value = "UTC=9999-99-99T99:99:99" then some DateTime.max
                   else strptimeHeader value) with
            | none => none
            | some validity_stop =>
              match findPath root (snp ++ ["Fixed_Header", "Source", "Creation_Date"]) with
              | none => none
              | some cdN =>
                match cdN.text with
                | none => none
                | some cdT =>
                  match strptimeHeader cdT with
                  | none => none
                  | some creation_date =>
                    match findPath root (snp ++ ["Fixed_Header", "Source", "System"]) with
                    | none => none
                    | some sysN =>
                      match findPath root (snp ++ ["Fixed_Header", "Source", "Creator"]) with
                      | none => none
                      | some creN =>
                        match findPath root (snp ++ ["Fixed_Header", "Source", "Creator_Version"]) with
                        | none => none
                        | some crvN =>
                          match footprintValues root snp with
                          | none => none
                          | some fp =>
                            some { validity_start := validity_start
                                   validity_stop := validity_stop
                                   creation_date := creation_date
                                   processing_center := sysN.text
                                   processor_name := creN.text
                                   processor_version := crvN.text
                                   footprint := fp }

/-- `EOFProduct._analyze_eof_header`: overlay the header-derived fields on
the filename-derived record (exceptions discard the record, so the update is
all-or-nothing at the `analyze` level). -/
def _analyze_eof_header (root : XmlNode) (properties : Properties) : Option Properties :=
  match headerValues root with
  | none => none
  | some f =>
    some { properties with
           core := { properties.core with
                     validity_start := some f.validity_start
                     validity_stop := some f.validity_stop
                     creation_date := some f.creation_date
                     footprint := match f.footprint with
                       | some fp => some fp
                       | none => properties.core.footprint }
           earthcare := { properties.earthcare with
                          processing_center := f.processing_center
                          processor_name := f.processor_name
                          processor_version := f.processor_version } }

/-! ## `analyze` -/

/-- The groupdict produced by `parse_filename`. -/
def GroupDict := List (String × Option String)

/-- `core.validity_stop` handling in `analyze` (lines 204-208): absent group
key means the field stays unset; a `None` value or unparsable date raises;
the all-nines sentinel maps to `datetime.max`. -/
def fieldStop (attrs : List (String × Option String)) : Option (Option DateTime) :=
  match attrs.lookup "validity_stop" with
  | none => some none
  | some none => none
  | some (some v) =>
    if v = "99999999T999999Z" then some (some DateTime.max)
    else
      match strptimeCompact v with
      | none => none
      | some dt => some (some dt)

/-- `earthcare.file_class` / `earthcare.baseline` handling (lines 210-212):
`baseline = file_class[2:]` (raises on a `None` value). -/
def fieldFileClass (attrs : List (String × Option String)) :
    Option (Option String × Option String) :=
  match attrs.lookup "file_class" with
  | none => some (none, none)
  | some none => none
  | some (some v) => some (some v, some (strDrop2 v))

/-- `int(file_name_attrs[key])` handling for `version` / `orbit_number`. -/
def fieldIntAttr (key : String) (attrs : List (String × Option String)) :
    Option (Option Int) :=
  match attrs.lookup key with
  | none => some none
  | some none => none
  | some (some v) =>
    match pyInt v with
    | none => none
    | some n => some (some n)

/-- `EOFProduct.analyze`.  `fs` abstracts the filesystem/zip read performed by
`read_xml_component` once the component location is resolved (a `none` result
models a missing or unparsable header document). -/
def EOFProduct.analyze (p : EOFProduct) (paths : List String) (filename_only : Bool)
    (fs : XmlLocation → Option XmlNode) : Option Properties :=
  match paths with
  | [] => none
  | p0 :: rest =>
    let file_path := if (p0 :: rest).length > 1 then (splitext p0).1 ++ ".HDR" else p0
    let file_name := basename file_path
    match p.parse_filename file_name with
    | none => none
    | some file_name_attrs =>
      match file_name_attrs.lookup "validity_start" with
      | none => none
      | some none => none
      | some (some vs) =>
        match strptimeCompact vs with
        | none => none
        | some validity_start =>
          match fieldStop file_name_attrs with
          | none => none
          | some validity_stop =>
            match fieldFileClass file_name_attrs with
            | none => none
            | some fcb =>
              match fieldIntAttr "version" file_name_attrs with
              | none => none
              | some version_number =>
                match fieldIntAttr "orbit_number" file_name_attrs with
                | none => none
                | some orbit_number =>
                  let frame_id : Option String :=
                    match file_name_attrs.lookup "frame_id" with
                    | none => none
                    | some v => v
                  let props : Properties :=
                    { core := { product_name := some (splitext file_name).1
                                validity_start := some validity_start
                                validity_stop := validity_stop }
                      earthcare := { file_class := fcb.1
                                     baseline := fcb.2
                                     orbit_number := orbit_number
                                     frame_id := frame_id
                                     version_number := version_number } }
                  if filename_only then some props
                  else
                    let component_path : Option String :=
                      if (p0 :: rest).length = 1 && p.is_zipped file_path then
                        some ((splitext (basename file_path)).1 ++ ".HDR")
                      else none
                    match fs (read_xml_component_location p file_path component_path) with
                    | none => none
                    | some root => _analyze_eof_header root props

/-! ## Packaging (`compress`, `export_zip`) -/

/-- The filesystem abstraction for packaging: the set of existing paths. -/
def FS := String → Bool

/-- `compress`: `zipfile.ZipFile(target, "x")` creates the archive
exclusively and fails (`FileExistsError`) when the target already exists.
Entry contents are beyond this model; only creation of the target path is
tracked. -/
def compress (fs : FS) (_paths : List String) (target_filepath : String) : Option FS :=
  if fs target_filepath then none
  else some (fun q => q = target_filepath || fs q)

/-- `EOFProduct.export_zip`; the result is the returned stored path (or
`none` when the call raises) together with the filesystem afterwards. -/
def EOFProduct.export_zip (p : EOFProduct) (physical_name cwd target_path : String)
    (paths : List String) (fs : FS) : Option String × FS :=
  match paths with
  | [] => (none, fs)
  | p0 :: rest =>
    if p.is_zipped p0 then
      if rest ≠ [] then (none, fs)
      else
        let dest := pjoin target_path (basename p0)
        (some dest, fun q => q = dest || fs q)
    else
      let target_filepath := pjoin (abspath cwd target_path) physical_name
      let target_filepath :=
        match p.extension with
        | some ext => if ext ≠ "" then strDropRight target_filepath ext.length else target_filepath
        | none => target_filepath
      let target_filepath := target_filepath ++ ".ZIP"
      match compress fs (p0 :: rest) target_filepath with
      | none => (none, fs)
      | some fs2 => (some target_filepath, fs2)


/-! ## Matcher lemmas -/

theorem matchN_append {k : CClass} {n : Nat} {cs : List Char} (r : List Char)
    (hlen : cs.length = n) (hall : ∀ c ∈ cs, k.matches c) :
    k.matchN n (cs ++ r) = some r := by
  induction cs generalizing n with
  | nil => subst hlen; rfl
  | cons c cs ih =>
    subst hlen
    simp only [List.cons_append, List.length_cons, CClass.matchN]
    rw [if_pos (hall c (by simp))]
    exact ih rfl (fun x hx => hall x (by simp [hx]))

theorem matchN_inv {k : CClass} {n : Nat} {s r : List Char}
    (h : k.matchN n s = some r) :
    ∃ cs, s = cs ++ r ∧ cs.length = n ∧ ∀ c ∈ cs, k.matches c := by
  induction n generalizing s with
  | zero =>
    simp only [CClass.matchN, Option.some.injEq] at h
    exact ⟨[], by simp [h]⟩
  | succ n ih =>
    match s with
    | [] => simp [CClass.matchN] at h
    | c :: s =>
      simp only [CClass.matchN] at h
      split at h
      · obtain ⟨cs, hs, hlen, hall⟩ := ih h
        rename_i hc
        refine ⟨c :: cs, by simp [hs], by simp [hlen], ?_⟩
        intro x hx
        rcases List.mem_cons.mp hx with hx | hx
        · exact hx ▸ hc
        · exact hall x hx
      · exact absurd h (by simp)

theorem mat_slitL (cs r : List Char) :
    (slitL cs).mat (cs ++ r) = some ([], r) := by
  induction cs with
  | nil => rfl
  | cons c cs ih => simp [slitL, Regex.mat, List.foldr] at ih ⊢; simp [ih]

theorem mat_chr_inv {c : Char} {s r : List Char} {g : List (String × String)}
    (h : (Regex.chr c).mat s = some (g, r)) : g = [] ∧ s = c :: r := by
  match s with
  | [] => simp [Regex.mat] at h
  | x :: s =>
    simp only [Regex.mat] at h
    split at h
    · rename_i hx
      simp only [Option.some.injEq, Prod.mk.injEq] at h
      exact ⟨h.1.symm, by rw [hx, h.2]⟩
    · exact absurd h (by simp)

theorem mat_seq_comp {a b : Regex} {s s1 s2 : List Char}
    {g1 g2 : List (String × String)}
    (ha : a.mat s = some (g1, s1)) (hb : b.mat s1 = some (g2, s2)) :
    (Regex.seq a b).mat s = some (g1 ++ g2, s2) := by
  simp [Regex.mat, ha, hb]

theorem mat_seq_inv {a b : Regex} {s s2 : List Char} {G : List (String × String)}
    (h : (Regex.seq a b).mat s = some (G, s2)) :
    ∃ g1 s1 g2, a.mat s = some (g1, s1) ∧ b.mat s1 = some (g2, s2) ∧ G = g1 ++ g2 := by
  simp only [Regex.mat] at h
  split at h
  · rename_i g1 s1 hm
    split at h
    · rename_i g2 s3 hm2
      simp only [Option.some.injEq, Prod.mk.injEq] at h
      exact ⟨g1, s1, g2, hm, h.2 ▸ hm2, h.1.symm⟩
    · exact absurd h (by simp)
  · exact absurd h (by simp)

theorem mat_slitL_inv {cs s : List Char} {g : List (String × String)} {r : List Char}
    (h : (slitL cs).mat s = some (g, r)) : g = [] ∧ s = cs ++ r := by
  induction cs generalizing s g with
  | nil =>
    simp only [slitL, List.foldr, Regex.mat, Option.some.injEq, Prod.mk.injEq] at h
    exact ⟨h.1.symm, by simp [h.2]⟩
  | cons c cs ih =>
    have h2 : (Regex.seq (.chr c) (slitL cs)).mat s = some (g, r) := h
    obtain ⟨g1, s1, g2, ha, hb, hG⟩ := mat_seq_inv h2
    obtain ⟨hg1, hs⟩ := mat_chr_inv ha
    obtain ⟨hg2, hs2⟩ := ih hb
    exact ⟨by simp [hG, hg1, hg2], by simp [hs, hs2]⟩

theorem mat_consumes {a : Regex} {s t : List Char} {g : List (String × String)}
    (h : a.mat s = some (g, t)) : ∃ pre, s = pre ++ t := by
  induction a generalizing s g t with
  | epsilon =>
    simp only [Regex.mat, Option.some.injEq, Prod.mk.injEq] at h
    exact ⟨[], by simp [h.2]⟩
  | chr c =>
    obtain ⟨-, hs⟩ := mat_chr_inv h
    exact ⟨[c], by simp [hs]⟩
  | ncls k n =>
    simp only [Regex.mat] at h
    split at h
    · rename_i r hm
      simp only [Option.some.injEq, Prod.mk.injEq] at h
      obtain ⟨cs, hs, -, -⟩ := matchN_inv hm
      exact ⟨cs, by simp [hs, h.2]⟩
    · exact absurd h (by simp)
  | seq a b iha ihb =>
    obtain ⟨g1, s1, g2, ha, hb, -⟩ := mat_seq_inv h
    obtain ⟨p1, hp1⟩ := iha ha
    obtain ⟨p2, hp2⟩ := ihb hb
    exact ⟨p1 ++ p2, by simp [hp1, hp2]⟩
  | alt a b iha ihb =>
    simp only [Regex.mat] at h
    split at h
    · rename_i r hm
      exact iha (hm.trans h)
    · exact ihb h
  | opt a iha =>
    simp only [Regex.mat] at h
    split at h
    · rename_i r hm
      exact iha (hm.trans h)
    · simp only [Option.some.injEq, Prod.mk.injEq] at h
      exact ⟨[], by simp [h.2]⟩
  | group nm a iha =>
    simp only [Regex.mat] at h
    split at h
    · rename_i g1 t1 hm
      simp only [Option.some.injEq, Prod.mk.injEq] at h
      exact h.2 ▸ iha hm
    · exact absurd h (by simp)
  | endAnchor =>
    match s with
    | [] =>
      simp only [Regex.mat, Option.some.injEq, Prod.mk.injEq] at h
      exact ⟨[], by simp [h.2]⟩
    | _ :: _ => simp [Regex.mat] at h

theorem mat_group_comp {a : Regex} {x r : List Char} {g : List (String × String)}
    (nm : String) (h : a.mat (x ++ r) = some (g, r)) :
    (Regex.group nm a).mat (x ++ r) = some (g ++ [(nm, ⟨x⟩)], r) := by
  simp only [Regex.mat, h]
  congr 2
  simp [List.length_append, List.take_left]

theorem mat_group_inv {nm : String} {a : Regex} {s r : List Char}
    {G : List (String × String)}
    (h : (Regex.group nm a).mat s = some (G, r)) :
    ∃ g, a.mat s = some (g, r) ∧ G = g ++ [(nm, ⟨s.take (s.length - r.length)⟩)] := by
  simp only [Regex.mat] at h
  split at h
  · rename_i g1 t1 hm
    simp only [Option.some.injEq, Prod.mk.injEq] at h
    exact ⟨g1, h.2 ▸ hm, by rw [← h.1, h.2]⟩
  · exact absurd h (by simp)

theorem mat_no_groups {a : Regex} (hg : a.hasGroups = false) {s t : List Char}
    {g : List (String × String)} (h : a.mat s = some (g, t)) : g = [] := by
  induction a generalizing s g t with
  | epsilon =>
    simp only [Regex.mat, Option.some.injEq, Prod.mk.injEq] at h
    exact h.1.symm
  | chr c => exact (mat_chr_inv h).1
  | ncls k n =>
    simp only [Regex.mat] at h
    split at h
    · simp only [Option.some.injEq, Prod.mk.injEq] at h
      exact h.1.symm
    · exact absurd h (by simp)
  | seq a b iha ihb =>
    simp only [Regex.hasGroups, Bool.or_eq_false_iff] at hg
    obtain ⟨g1, s1, g2, ha, hb, hG⟩ := mat_seq_inv h
    rw [hG, iha hg.1 ha, ihb hg.2 hb]
    rfl
  | alt a b iha ihb =>
    simp only [Regex.hasGroups, Bool.or_eq_false_iff] at hg
    simp only [Regex.mat] at h
    split at h
    · rename_i r hm
      exact iha hg.1 (hm.trans h)
    · exact ihb hg.2 h
  | opt a iha =>
    simp only [Regex.hasGroups] at hg
    simp only [Regex.mat] at h
    split at h
    · rename_i r hm
      exact iha hg (hm.trans h)
    · simp only [Option.some.injEq, Prod.mk.injEq] at h
      exact h.1.symm
  | group nm a iha => simp [Regex.hasGroups] at hg
  | endAnchor =>
    match s with
    | [] =>
      simp only [Regex.mat, Option.some.injEq, Prod.mk.injEq] at h
      exact h.1.symm
    | _ :: _ => simp [Regex.mat] at h

theorem hasGroups_slitL (cs : List Char) : (slitL cs).hasGroups = false := by
  induction cs with
  | nil => rfl
  | cons c cs ih => simp [slitL, Regex.hasGroups, List.foldr] at ih ⊢; exact ih

theorem namedGroups_slitL (cs : List Char) : (slitL cs).namedGroups = [] := by
  induction cs with
  | nil => rfl
  | cons c cs ih => simp [slitL, Regex.namedGroups, List.foldr] at ih ⊢; exact ih

/-! ## Composition lemmas for the concrete grammars -/

theorem mat_chr_cons (c : Char) (z : List Char) :
    (Regex.chr c).mat (c :: z) = some ([], z) := by
  simp [Regex.mat]

theorem mat_ncls_comp {k : CClass} {n : Nat} {cs : List Char} (r : List Char)
    (hlen : cs.length = n) (hall : ∀ c ∈ cs, k.matches c) :
    (Regex.ncls k n).mat (cs ++ r) = some ([], r) := by
  simp [Regex.mat, matchN_append r hlen hall]

theorem mat_ts_comp {d8 d6 : List Char} (r : List Char)
    (h8 : d8.length = 8) (h8d : ∀ c ∈ d8, CClass.digit.matches c)
    (h6 : d6.length = 6) (h6d : ∀ c ∈ d6, CClass.digit.matches c) :
    tsRegex.mat ((d8 ++ 'T' :: (d6 ++ ['Z'])) ++ r) = some ([], r) := by
  have hshape : (d8 ++ 'T' :: (d6 ++ ['Z'])) ++ r = d8 ++ 'T' :: (d6 ++ 'Z' :: r) := by
    simp [List.append_assoc]
  rw [hshape]
  have h := mat_seq_comp (mat_ncls_comp ('T' :: (d6 ++ 'Z' :: r)) h8 h8d)
    (mat_seq_comp (mat_chr_cons 'T' (d6 ++ 'Z' :: r))
      (mat_seq_comp (mat_ncls_comp ('Z' :: r) h6 h6d) (mat_chr_cons 'Z' r)))
  simpa [tsRegex] using h

theorem mat_ncls_inv {k : CClass} {n : Nat} {s r : List Char} {g : List (String × String)}
    (h : (Regex.ncls k n).mat s = some (g, r)) :
    g = [] ∧ ∃ cs, s = cs ++ r ∧ cs.length = n ∧ ∀ c ∈ cs, k.matches c := by
  simp only [Regex.mat] at h
  split at h
  · rename_i t hm
    simp only [Option.some.injEq, Prod.mk.injEq] at h
    obtain ⟨cs, hs, hlen, hall⟩ := matchN_inv hm
    exact ⟨h.1.symm, cs, by simp [hs, h.2], hlen, hall⟩
  · exact absurd h (by simp)

theorem mat_ts_inv {s r : List Char} {g : List (String × String)}
    (h : tsRegex.mat s = some (g, r)) :
    g = [] ∧ ∃ pre, s = pre ++ r ∧ pre.length = 16 := by
  obtain ⟨g1, s1, g2, h1, h2, hG⟩ := mat_seq_inv h
  obtain ⟨g3, s3, g4, h3, h4, hG2⟩ := mat_seq_inv h2
  obtain ⟨g5, s5, g6, h5, h6, hG3⟩ := mat_seq_inv h4
  obtain ⟨hg1, cs8, hs8, hlen8, -⟩ := mat_ncls_inv h1
  obtain ⟨hg3, hs3⟩ := mat_chr_inv h3
  obtain ⟨hg5, cs6, hs6, hlen6, -⟩ := mat_ncls_inv h5
  obtain ⟨hg6, hs7⟩ := mat_chr_inv h6
  refine ⟨by simp [hG, hG2, hG3, hg1, hg3, hg5, hg6], cs8 ++ 'T' :: (cs6 ++ ['Z']), ?_, by simp [hlen8, hlen6]⟩
  simp [hs8, hs3, hs6, hs7, List.append_assoc]

theorem capture_take {s pre r : List Char} (hs : s = pre ++ r) :
    (⟨s.take (s.length - r.length)⟩ : String) = ⟨pre⟩ := by
  subst hs
  congr 1
  simp [List.length_append, List.take_left]

theorem mat_group_ncls_inv {nm : String} {k : CClass} {n : Nat} {s r : List Char}
    {G : List (String × String)}
    (h : (Regex.group nm (Regex.ncls k n)).mat s = some (G, r)) :
    ∃ cap : List Char, G = [(nm, ⟨cap⟩)] ∧ cap.length = n ∧
      (∀ c ∈ cap, k.matches c) ∧ s = cap ++ r := by
  obtain ⟨g, hg, hG⟩ := mat_group_inv h
  obtain ⟨hgnil, cs, hs, hlen, hall⟩ := mat_ncls_inv hg
  refine ⟨cs, ?_, hlen, hall, hs⟩
  rw [hG, hgnil, capture_take hs]
  rfl

theorem mat_group_ts_inv {nm : String} {s r : List Char} {G : List (String × String)}
    (h : (Regex.group nm tsRegex).mat s = some (G, r)) :
    ∃ cap : List Char, G = [(nm, ⟨cap⟩)] ∧ cap.length = 16 ∧ s = cap ++ r := by
  obtain ⟨g, hg, hG⟩ := mat_group_inv h
  obtain ⟨hgnil, pre, hs, hlen⟩ := mat_ts_inv hg
  refine ⟨pre, ?_, hlen, hs⟩
  rw [hG, hgnil, capture_take hs]
  rfl

/-- Forward matching of the `EarthCAREProduct` base grammar on a synthesized
name (the `_`-joined parts with field values drawn from the right classes). -/
theorem eca_base_mat (pt : String) {fc d8a d6a d8b d6b orb fr : List Char} (r : List Char)
    (hfc : fc.length = 4) (hfcw : ∀ c ∈ fc, CClass.word.matches c)
    (h8a : d8a.length = 8) (h8ad : ∀ c ∈ d8a, CClass.digit.matches c)
    (h6a : d6a.length = 6) (h6ad : ∀ c ∈ d6a, CClass.digit.matches c)
    (h8b : d8b.length = 8) (h8bd : ∀ c ∈ d8b, CClass.digit.matches c)
    (h6b : d6b.length = 6) (h6bd : ∀ c ∈ d6b, CClass.digit.matches c)
    (horb : orb.length = 5) (horbd : ∀ c ∈ orb, CClass.digit.matches c)
    (hfr : fr.length = 1) (hfru : ∀ c ∈ fr, CClass.upper.matches c) :
    (joinSep (ecaParts pt)).mat
      ("ECA".toList ++ '_' :: (fc ++ '_' :: (pt.toList ++ '_' ::
        ((d8a ++ 'T' :: (d6a ++ ['Z'])) ++ '_' ::
          ((d8b ++ 'T' :: (d6b ++ ['Z'])) ++ '_' :: (orb ++ (fr ++ r))))))) =
      some ([("file_class", ⟨fc⟩),
             ("validity_start", ⟨d8a ++ 'T' :: (d6a ++ ['Z'])⟩),
             ("creation_date", ⟨d8b ++ 'T' :: (d6b ++ ['Z'])⟩),
             ("orbit_number", ⟨orb⟩), ("frame_id", ⟨fr⟩)], r) := by
  have h6g : (Regex.seq (Regex.group "orbit_number" (Regex.ncls .digit 5))
      (Regex.group "frame_id" (Regex.ncls .upper 1))).mat (orb ++ (fr ++ r)) =
      some ([("orbit_number", ⟨orb⟩)] ++ [("frame_id", ⟨fr⟩)], r) :=
    mat_seq_comp
      (mat_group_comp "orbit_number" (mat_ncls_comp (fr ++ r) horb horbd))
      (mat_group_comp "frame_id" (mat_ncls_comp r hfr hfru))
  have h5g := mat_group_comp "creation_date"
    (mat_ts_comp ('_' :: (orb ++ (fr ++ r))) h8b h8bd h6b h6bd)
  have h4g := mat_group_comp "validity_start"
    (mat_ts_comp ('_' :: ((d8b ++ 'T' :: (d6b ++ ['Z'])) ++ '_' :: (orb ++ (fr ++ r))))
      h8a h8ad h6a h6ad)
  have h2g := mat_group_comp "file_class" (mat_ncls_comp
    ('_' :: (pt.toList ++ '_' :: ((d8a ++ 'T' :: (d6a ++ ['Z'])) ++ '_' ::
      ((d8b ++ 'T' :: (d6b ++ ['Z'])) ++ '_' :: (orb ++ (fr ++ r)))))) hfc hfcw)
  have hchain :=
    mat_seq_comp (mat_slitL "ECA".toList _)
      (mat_seq_comp (mat_chr_cons '_' _)
        (mat_seq_comp h2g
          (mat_seq_comp (mat_chr_cons '_' _)
            (mat_seq_comp (mat_slitL pt.toList _)
              (mat_seq_comp (mat_chr_cons '_' _)
                (mat_seq_comp h4g
                  (mat_seq_comp (mat_chr_cons '_' _)
                    (mat_seq_comp h5g
                      (mat_seq_comp (mat_chr_cons '_' _) h6g)))))))))
  simpa [ecaParts, joinSep, slit] using hchain

/-- Forward matching of the `AUXProduct` base grammar on a synthesized name. -/
theorem aux_base_mat (pt : String) {fc d8a d6a d8b d6b ver : List Char} (r : List Char)
    (hfc : fc.length = 4) (hfcw : ∀ c ∈ fc, CClass.word.matches c)
    (h8a : d8a.length = 8) (h8ad : ∀ c ∈ d8a, CClass.digit.matches c)
    (h6a : d6a.length = 6) (h6ad : ∀ c ∈ d6a, CClass.digit.matches c)
    (h8b : d8b.length = 8) (h8bd : ∀ c ∈ d8b, CClass.digit.matches c)
    (h6b : d6b.length = 6) (h6bd : ∀ c ∈ d6b, CClass.digit.matches c)
    (hver : ver.length = 4) (hverd : ∀ c ∈ ver, CClass.digit.matches c) :
    (joinSep (auxParts pt)).mat
      ("ECA".toList ++ '_' :: (fc ++ '_' :: (pt.toList ++ '_' ::
        ((d8a ++ 'T' :: (d6a ++ ['Z'])) ++ '_' ::
          ((d8b ++ 'T' :: (d6b ++ ['Z'])) ++ '_' :: (ver ++ r)))))) =
      some ([("file_class", ⟨fc⟩),
             ("validity_start", ⟨d8a ++ 'T' :: (d6a ++ ['Z'])⟩),
             ("validity_stop", ⟨d8b ++ 'T' :: (d6b ++ ['Z'])⟩),
             ("version", ⟨ver⟩)], r) := by
  have h6g := mat_group_comp "version" (mat_ncls_comp r hver hverd)
  have h5g := mat_group_comp "validity_stop"
    (mat_ts_comp ('_' :: (ver ++ r)) h8b h8bd h6b h6bd)
  have h4g := mat_group_comp "validity_start"
    (mat_ts_comp ('_' :: ((d8b ++ 'T' :: (d6b ++ ['Z'])) ++ '_' :: (ver ++ r)))
      h8a h8ad h6a h6ad)
  have h2g := mat_group_comp "file_class" (mat_ncls_comp
    ('_' :: (pt.toList ++ '_' :: ((d8a ++ 'T' :: (d6a ++ ['Z'])) ++ '_' ::
      ((d8b ++ 'T' :: (d6b ++ ['Z'])) ++ '_' :: (ver ++ r))))) hfc hfcw)
  have hchain :=
    mat_seq_comp (mat_slitL "ECA".toList _)
      (mat_seq_comp (mat_chr_cons '_' _)
        (mat_seq_comp h2g
          (mat_seq_comp (mat_chr_cons '_' _)
            (mat_seq_comp (mat_slitL pt.toList _)
              (mat_seq_comp (mat_chr_cons '_' _)
                (mat_seq_comp h4g
                  (mat_seq_comp (mat_chr_cons '_' _)
                    (mat_seq_comp h5g
                      (mat_seq_comp (mat_chr_cons '_' _) h6g)))))))))
  simpa [auxParts, joinSep, slit] using hchain

/-- Inversion: any successful match of the `EarthCAREProduct` base grammar
captures the five groups with their grammar-fixed widths. -/
theorem eca_base_inv {pt : String} {s r : List Char} {G : List (String × String)}
    (h : (joinSep (ecaParts pt)).mat s = some (G, r)) :
    ∃ c1 c2 c3 c4 c5 : List Char,
      G = [("file_class", ⟨c1⟩), ("validity_start", ⟨c2⟩), ("creation_date", ⟨c3⟩),
           ("orbit_number", ⟨c4⟩), ("frame_id", ⟨c5⟩)] ∧
      c1.length = 4 ∧ c2.length = 16 ∧ c3.length = 16 ∧ c4.length = 5 ∧ c5.length = 1 := by
  have h0 : (Regex.seq (slit "ECA") (Regex.seq (Regex.chr '_')
      (Regex.seq (Regex.group "file_class" (Regex.ncls .word 4)) (Regex.seq (Regex.chr '_')
        (Regex.seq (slit pt) (Regex.seq (Regex.chr '_')
          (Regex.seq (Regex.group "validity_start" tsRegex) (Regex.seq (Regex.chr '_')
            (Regex.seq (Regex.group "creation_date" tsRegex) (Regex.seq (Regex.chr '_')
              (Regex.seq (Regex.group "orbit_number" (Regex.ncls .digit 5))
                (Regex.group "frame_id" (Regex.ncls .upper 1))))))))))))).mat s =
      some (G, r) := by
    simpa [ecaParts, joinSep] using h
  obtain ⟨gA, s1, g1, hA, h1, hGA⟩ := mat_seq_inv h0
  obtain ⟨gB, s2, g2, hB, h2, hGB⟩ := mat_seq_inv h1
  obtain ⟨gC, s3, g3, hC, h3, hGC⟩ := mat_seq_inv h2
  obtain ⟨gD, s4, g4, hD, h4, hGD⟩ := mat_seq_inv h3
  obtain ⟨gE, s5, g5, hE, h5, hGE⟩ := mat_seq_inv h4
  obtain ⟨gF, s6, g6, hF, h6, hGF⟩ := mat_seq_inv h5
  obtain ⟨gG, s7, g7, hG7, h7, hGG⟩ := mat_seq_inv h6
  obtain ⟨gH, s8, g8, hH, h8, hGH⟩ := mat_seq_inv h7
  obtain ⟨gI, s9, g9, hI, h9, hGI⟩ := mat_seq_inv h8
  obtain ⟨gJ, s10, g10, hJ, h10, hGJ⟩ := mat_seq_inv h9
  obtain ⟨gK, s11, g11, hK, h11, hGK⟩ := mat_seq_inv h10
  obtain ⟨hgA, -⟩ := mat_slitL_inv hA
  obtain ⟨hgB, -⟩ := mat_chr_inv hB
  obtain ⟨c1, hgC, hc1, -, -⟩ := mat_group_ncls_inv hC
  obtain ⟨hgD, -⟩ := mat_chr_inv hD
  obtain ⟨hgE, -⟩ := mat_slitL_inv hE
  obtain ⟨hgF, -⟩ := mat_chr_inv hF
  obtain ⟨c2, hgG, hc2, -⟩ := mat_group_ts_inv hG7
  obtain ⟨hgH, -⟩ := mat_chr_inv hH
  obtain ⟨c3, hgI, hc3, -⟩ := mat_group_ts_inv hI
  obtain ⟨hgJ, -⟩ := mat_chr_inv hJ
  obtain ⟨c4, hgK, hc4, -, -⟩ := mat_group_ncls_inv hK
  obtain ⟨c5, hg11, hc5, -, -⟩ := mat_group_ncls_inv h11
  refine ⟨c1, c2, c3, c4, c5, ?_, hc1, hc2, hc3, hc4, hc5⟩
  simp [hGA, hGB, hGC, hGD, hGE, hGF, hGG, hGH, hGI, hGJ, hGK,
        hgA, hgB, hgC, hgD, hgE, hgF, hgG, hgH, hgI, hgJ, hgK, hg11]

/-- Inversion for the `AUXProduct` base grammar. -/
theorem aux_base_inv {pt : String} {s r : List Char} {G : List (String × String)}
    (h : (joinSep (auxParts pt)).mat s = some (G, r)) :
    ∃ c1 c2 c3 c4 : List Char,
      G = [("file_class", ⟨c1⟩), ("validity_start", ⟨c2⟩), ("validity_stop", ⟨c3⟩),
           ("version", ⟨c4⟩)] ∧
      c1.length = 4 ∧ c2.length = 16 ∧ c3.length = 16 ∧ c4.length = 4 := by
  have h0 : (Regex.seq (slit "ECA") (Regex.seq (Regex.chr '_')
      (Regex.seq (Regex.group "file_class" (Regex.ncls .word 4)) (Regex.seq (Regex.chr '_')
        (Regex.seq (slit pt) (Regex.seq (Regex.chr '_')
          (Regex.seq (Regex.group "validity_start" tsRegex) (Regex.seq (Regex.chr '_')
            (Regex.seq (Regex.group "validity_stop" tsRegex) (Regex.seq (Regex.chr '_')
              (Regex.group "version" (Regex.ncls .digit 4)))))))))))).mat s =
      some (G, r) := by
    simpa [auxParts, joinSep] using h
  obtain ⟨gA, s1, g1, hA, h1, hGA⟩ := mat_seq_inv h0
  obtain ⟨gB, s2, g2, hB, h2, hGB⟩ := mat_seq_inv h1
  obtain ⟨gC, s3, g3, hC, h3, hGC⟩ := mat_seq_inv h2
  obtain ⟨gD, s4, g4, hD, h4, hGD⟩ := mat_seq_inv h3
  obtain ⟨gE, s5, g5, hE, h5, hGE⟩ := mat_seq_inv h4
  obtain ⟨gF, s6, g6, hF, h6, hGF⟩ := mat_seq_inv h5
  obtain ⟨gG, s7, g7, hG7, h7, hGG⟩ := mat_seq_inv h6
  obtain ⟨gH, s8, g8, hH, h8, hGH⟩ := mat_seq_inv h7
  obtain ⟨gI, s9, g9, hI, h9, hGI⟩ := mat_seq_inv h8
  obtain ⟨gJ, s10, g10, hJ, h10, hGJ⟩ := mat_seq_inv h9
  obtain ⟨hgA, -⟩ := mat_slitL_inv hA
  obtain ⟨hgB, -⟩ := mat_chr_inv hB
  obtain ⟨c1, hgC, hc1, -, -⟩ := mat_group_ncls_inv hC
  obtain ⟨hgD, -⟩ := mat_chr_inv hD
  obtain ⟨hgE, -⟩ := mat_slitL_inv hE
  obtain ⟨hgF, -⟩ := mat_chr_inv hF
  obtain ⟨c2, hgG, hc2, -⟩ := mat_group_ts_inv hG7
  obtain ⟨hgH, -⟩ := mat_chr_inv hH
  obtain ⟨c3, hgI, hc3, -⟩ := mat_group_ts_inv hI
  obtain ⟨hgJ, -⟩ := mat_chr_inv hJ
  obtain ⟨c4, hg10, hc4, -, -⟩ := mat_group_ncls_inv h10
  refine ⟨c1, c2, c3, c4, ?_, hc1, hc2, hc3, hc4⟩
  simp [hGA, hGB, hGC, hGD, hGE, hGF, hGG, hGH, hGI, hGJ,
        hgA, hgB, hgC, hgD, hgE, hgF, hgG, hgH, hgI, hgJ, hg10]

/-! ## Pattern shapes of the registered descriptor families -/

theorem ec_pattern_flex (pt : String) :
    (EarthCAREProduct pt none none).filename_pattern =
      .seq (joinSep (ecaParts pt)) (.opt (.seq (slit ".ZIP") .endAnchor)) := rfl

theorem ec_pattern_eof (pt : String) :
    (EarthCAREProduct pt (some ".EOF") none).filename_pattern =
      .seq (joinSep (ecaParts pt)) (.seq (.alt (slit ".EOF") (slit ".ZIP")) .endAnchor) := rfl

theorem aux_pattern (pt : String) :
    (AUXProduct pt none).filename_pattern =
      .seq (joinSep (auxParts pt)) (.seq (.alt (slit ".EOF") (slit ".ZIP")) .endAnchor) := rfl

theorem optzip_hasGroups :
    (Regex.opt (.seq (slit ".ZIP") .endAnchor)).hasGroups = false := by
  simp [Regex.hasGroups, slit, hasGroups_slitL]

theorem altend_hasGroups (e1 e2 : String) :
    (Regex.seq (.alt (slit e1) (slit e2)) .endAnchor).hasGroups = false := by
  simp [Regex.hasGroups, slit, hasGroups_slitL]

/-- Inversion for a full `EarthCAREProduct` pattern: the capture list for any
successful match, with grammar-fixed capture widths (the zip/extension suffix
contributes no group). -/
theorem eca_full_inv {pt : String} {suffix : Regex} {s r : List Char}
    {G : List (String × String)} (hsuf : suffix.hasGroups = false)
    (h : (Regex.seq (joinSep (ecaParts pt)) suffix).mat s = some (G, r)) :
    ∃ c1 c2 c3 c4 c5 : List Char,
      G = [("file_class", ⟨c1⟩), ("validity_start", ⟨c2⟩), ("creation_date", ⟨c3⟩),
           ("orbit_number", ⟨c4⟩), ("frame_id", ⟨c5⟩)] ∧
      c1.length = 4 ∧ c2.length = 16 ∧ c3.length = 16 ∧ c4.length = 5 ∧ c5.length = 1 := by
  obtain ⟨g1, s1, g2, h1, h2, hG⟩ := mat_seq_inv h
  obtain ⟨c1, c2, c3, c4, c5, hg1, hls⟩ := eca_base_inv h1
  refine ⟨c1, c2, c3, c4, c5, ?_, hls⟩
  rw [hG, hg1, mat_no_groups hsuf h2]
  simp

/-- Inversion for a full `AUXProduct` pattern. -/
theorem aux_full_inv {pt : String} {suffix : Regex} {s r : List Char}
    {G : List (String × String)} (hsuf : suffix.hasGroups = false)
    (h : (Regex.seq (joinSep (auxParts pt)) suffix).mat s = some (G, r)) :
    ∃ c1 c2 c3 c4 : List Char,
      G = [("file_class", ⟨c1⟩), ("validity_start", ⟨c2⟩), ("validity_stop", ⟨c3⟩),
           ("version", ⟨c4⟩)] ∧
      c1.length = 4 ∧ c2.length = 16 ∧ c3.length = 16 ∧ c4.length = 4 := by
  obtain ⟨g1, s1, g2, h1, h2, hG⟩ := mat_seq_inv h
  obtain ⟨c1, c2, c3, c4, hg1, hls⟩ := aux_base_inv h1
  refine ⟨c1, c2, c3, c4, ?_, hls⟩
  rw [hG, hg1, mat_no_groups hsuf h2]
  simp

theorem eca_base_namedGroups (pt : String) :
    (joinSep (ecaParts pt)).namedGroups =
      ["file_class", "validity_start", "creation_date", "orbit_number", "frame_id"] := by
  simp [ecaParts, joinSep, Regex.namedGroups, slit, namedGroups_slitL, tsRegex]

theorem aux_base_namedGroups (pt : String) :
    (joinSep (auxParts pt)).namedGroups =
      ["file_class", "validity_start", "validity_stop", "version"] := by
  simp [auxParts, joinSep, Regex.namedGroups, slit, namedGroups_slitL, tsRegex]

theorem optzip_namedGroups :
    (Regex.opt (.seq (slit ".ZIP") .endAnchor)).namedGroups = [] := by
  simp [Regex.namedGroups, slit, namedGroups_slitL]

theorem altend_namedGroups (e1 e2 : String) :
    (Regex.seq (.alt (slit e1) (slit e2)) .endAnchor).namedGroups = [] := by
  simp [Regex.namedGroups, slit, namedGroups_slitL]

/-! ## `basename` lemmas -/

theorem basename_noSlash (p : String) : ∀ c ∈ (basename p).toList, c ≠ '/' := by
  intro c hc
  have : c ∈ p.toList.reverse.takeWhile (fun c => c ≠ '/') := by
    simpa [basename] using hc
  simpa using List.mem_takeWhile_imp this

theorem basename_of_noSlash {p : String} (hp : ∀ c ∈ p.toList, c ≠ '/') :
    basename p = p := by
  have h1 : p.toList.reverse.takeWhile (fun c => c ≠ '/') = p.toList.reverse := by
    rw [List.takeWhile_eq_self_iff]
    intro x hx
    simpa using hp x (by simpa using hx)
  show (⟨(p.toList.reverse.takeWhile (fun c => c ≠ '/')).reverse⟩ : String) = p
  rw [h1, List.reverse_reverse]
  cases p
  rfl

theorem basename_idem (p : String) : basename (basename p) = basename p :=
  basename_of_noSlash (basename_noSlash p)

/-! ## groupdict lookup -/

theorem lookup_map_keys (l : List String) (f : String → Option String) (k : String) :
    (l.map fun nm => (nm, f nm)).lookup k = if k ∈ l then some (f k) else none := by
  induction l with
  | nil => rfl
  | cons a l ih =>
    by_cases hk : k = a
    · subst hk; simp [List.lookup]
    · have hb : (k == a) = false := beq_eq_false_iff_ne.mpr hk
      simp [List.lookup, hb, ih, List.mem_cons, hk]

/-! ## Registry case analysis -/

theorem mem_product_types_cases {e : String × EOFProduct} (he : e ∈ _product_types) :
    (∃ pt, e = (pt, EarthCAREProduct pt none none)) ∨
    (∃ pt, e = (pt, EarthCAREProduct pt (some ".EOF") none)) ∨
    (∃ pt, e = (pt, AUXProduct pt none)) := by
  simp only [_product_types, List.mem_append, List.mem_map] at he
  rcases he with ((((⟨pt, -, rfl⟩ | ⟨pt, -, rfl⟩) | ⟨pt, -, rfl⟩) | ⟨pt, -, rfl⟩) |
    ⟨pt, -, rfl⟩) | ⟨pt, -, rfl⟩
  · exact Or.inl ⟨pt, rfl⟩
  · exact Or.inl ⟨pt, rfl⟩
  · exact Or.inl ⟨pt, rfl⟩
  · exact Or.inr (Or.inl ⟨pt, rfl⟩)
  · exact Or.inr (Or.inr ⟨pt, rfl⟩)
  · exact Or.inr (Or.inr ⟨pt, rfl⟩)

/-! ## `_analyze_eof_header` and `analyze` inversion -/

/-- The header overlay never touches the filename-derived identification
fields (it only overwrites validity window, creation date, footprint and the
processor fields). -/
theorem analyze_eof_header_preserves {root : XmlNode} {props props2 : Properties}
    (h : _analyze_eof_header root props = some props2) :
    props2.core.product_name = props.core.product_name ∧
    props2.earthcare.file_class = props.earthcare.file_class ∧
    props2.earthcare.baseline = props.earthcare.baseline ∧
    props2.earthcare.orbit_number = props.earthcare.orbit_number ∧
    props2.earthcare.frame_id = props.earthcare.frame_id ∧
    props2.earthcare.version_number = props.earthcare.version_number := by
  unfold _analyze_eof_header at h
  split at h
  · exact absurd h (by simp)
  · simp only [Option.some.injEq] at h
    subst h
    simp

/-- The header overlay sets `core.validity_stop` to the extracted stop
value. -/
theorem analyze_eof_header_stop {root : XmlNode} {props props2 : Properties}
    {f : HeaderValues} (hf : headerValues root = some f)
    (h : _analyze_eof_header root props = some props2) :
    props2.core.validity_stop = some f.validity_stop := by
  unfold _analyze_eof_header at h
  rw [hf] at h
  simp only [Option.some.injEq] at h
  subst h
  rfl

/-- Full inversion of a successful `analyze` call into its intermediate
values. -/
theorem analyze_inversion {p : EOFProduct} {paths : List String} {fo : Bool}
    {fs : XmlLocation → Option XmlNode} {props : Properties}
    (h : p.analyze paths fo fs = some props) :
    ∃ p0 rest attrs vs validity_start validity_stop fcb version_number orbit_number props0,
      paths = p0 :: rest ∧
      p.parse_filename
        (basename (if (p0 :: rest).length > 1 then (splitext p0).1 ++ ".HDR" else p0)) =
        some attrs ∧
      attrs.lookup "validity_start" = some (some vs) ∧
      strptimeCompact vs = some validity_start ∧
      fieldStop attrs = some validity_stop ∧
      fieldFileClass attrs = some fcb ∧
      fieldIntAttr "version" attrs = some version_number ∧
      fieldIntAttr "orbit_number" attrs = some orbit_number ∧
      props0 =
        { core :=
            { product_name :=
                some (splitext (basename
                  (if (p0 :: rest).length > 1 then (splitext p0).1 ++ ".HDR" else p0))).1
              validity_start := some validity_start
              validity_stop := validity_stop }
          earthcare :=
            { file_class := fcb.1
              baseline := fcb.2
              orbit_number := orbit_number
              frame_id :=
                match attrs.lookup "frame_id" with
                | none => none
                | some v => v
              version_number := version_number } } ∧
      (if fo then props = props0
       else ∃ root,
         fs (read_xml_component_location p
              (if (p0 :: rest).length > 1 then (splitext p0).1 ++ ".HDR" else p0)
              (if (p0 :: rest).length = 1 &&
                  p.is_zipped (if (p0 :: rest).length > 1 then (splitext p0).1 ++ ".HDR" else p0)
               then some ((splitext (basename
                      (if (p0 :: rest).length > 1 then (splitext p0).1 ++ ".HDR" else p0))).1
                      ++ ".HDR")
               else none)) = some root ∧
         _analyze_eof_header root props0 = some props) := by
  match paths with
  | [] => exact absurd h (by simp [EOFProduct.analyze])
  | p0 :: rest =>
    simp only [EOFProduct.analyze] at h
    split at h
    · exact absurd h (by simp)
    · rename_i attrs hattrs
      split at h
      · exact absurd h (by simp)
      · exact absurd h (by simp)
      · rename_i vs hvs
        split at h
        · exact absurd h (by simp)
        · rename_i validity_start hvstart
          split at h
          · exact absurd h (by simp)
          · rename_i validity_stop hstop
            split at h
            · exact absurd h (by simp)
            · rename_i fcb hfcb
              split at h
              · exact absurd h (by simp)
              · rename_i version_number hver
                split at h
                · exact absurd h (by simp)
                · rename_i orbit_number horb
                  by_cases hfo : fo
                  · rw [if_pos hfo] at h
                    simp only [Option.some.injEq] at h
                    refine ⟨p0, rest, attrs, vs, validity_start, validity_stop, fcb,
                      version_number, orbit_number, _, rfl, hattrs, hvs, hvstart, hstop,
                      hfcb, hver, horb, rfl, ?_⟩
                    rw [if_pos hfo]
                    exact h.symm
                  · rw [if_neg hfo] at h
                    split at h
                    · exact absurd h (by simp)
                    · rename_i root hroot
                      refine ⟨p0, rest, attrs, vs, validity_start, validity_stop, fcb,
                        version_number, orbit_number, _, rfl, hattrs, hvs, hvstart, hstop,
                        hfcb, hver, horb, rfl, ?_⟩
                      rw [if_neg hfo]
                      exact ⟨root, hroot, h⟩

/-! ## `parse_filename` characterizations per registered family -/

theorem parse_filename_basename (p : EOFProduct) (f : String) :
    p.parse_filename (basename f) = p.parse_filename f := by
  unfold EOFProduct.parse_filename
  rw [basename_idem]

theorem mk_ne_empty_of_length {cs : List Char} {n : Nat} (h : cs.length = n)
    (hn : 0 < n) : (⟨cs⟩ : String) ≠ "" := by
  intro hh
  have : cs = [] := by
    have := congrArg String.data hh
    simpa using this
  rw [this] at h
  simp at h
  omega

theorem ec_flex_parse_inv {pt f : String} {d : List (String × Option String)}
    (h : (EarthCAREProduct pt none none).parse_filename f = some d) :
    ∃ c1 c2 c3 c4 c5 : List Char,
      d = [("file_class", some ⟨c1⟩), ("validity_start", some ⟨c2⟩),
           ("creation_date", some ⟨c3⟩), ("orbit_number", some ⟨c4⟩),
           ("frame_id", some ⟨c5⟩)] ∧
      c1.length = 4 ∧ c2.length = 16 ∧ c3.length = 16 ∧ c4.length = 5 ∧ c5.length = 1 := by
  unfold EOFProduct.parse_filename at h
  rw [ec_pattern_flex] at h
  split at h
  · rename_i g rest hmat
    obtain ⟨c1, c2, c3, c4, c5, hg, h1, h2, h3, h4, h5⟩ :=
      eca_full_inv optzip_hasGroups hmat
    simp only [Option.some.injEq] at h
    have hng : (Regex.seq (joinSep (ecaParts pt))
        (.opt (.seq (slit ".ZIP") .endAnchor))).namedGroups =
        ["file_class", "validity_start", "creation_date", "orbit_number", "frame_id"] := by
      simp [Regex.namedGroups, eca_base_namedGroups, optzip_namedGroups, ecaParts, joinSep, slit, namedGroups_slitL, tsRegex]
    refine ⟨c1, c2, c3, c4, c5, ?_, h1, h2, h3, h4, h5⟩
    rw [← h, hng, hg]
    rfl
  · exact absurd h (by simp)

theorem ec_eof_parse_inv {pt f : String} {d : List (String × Option String)}
    (h : (EarthCAREProduct pt (some ".EOF") none).parse_filename f = some d) :
    ∃ c1 c2 c3 c4 c5 : List Char,
      d = [("file_class", some ⟨c1⟩), ("validity_start", some ⟨c2⟩),
           ("creation_date", some ⟨c3⟩), ("orbit_number", some ⟨c4⟩),
           ("frame_id", some ⟨c5⟩)] ∧
      c1.length = 4 ∧ c2.length = 16 ∧ c3.length = 16 ∧ c4.length = 5 ∧ c5.length = 1 := by
  unfold EOFProduct.parse_filename at h
  rw [ec_pattern_eof] at h
  split at h
  · rename_i g rest hmat
    obtain ⟨c1, c2, c3, c4, c5, hg, h1, h2, h3, h4, h5⟩ :=
      eca_full_inv (altend_hasGroups ".EOF" ".ZIP") hmat
    simp only [Option.some.injEq] at h
    have hng : (Regex.seq (joinSep (ecaParts pt))
        (.seq (.alt (slit ".EOF") (slit ".ZIP")) .endAnchor)).namedGroups =
        ["file_class", "validity_start", "creation_date", "orbit_number", "frame_id"] := by
      simp [Regex.namedGroups, eca_base_namedGroups, altend_namedGroups, ecaParts, joinSep, slit, namedGroups_slitL, tsRegex]
    refine ⟨c1, c2, c3, c4, c5, ?_, h1, h2, h3, h4, h5⟩
    rw [← h, hng, hg]
    rfl
  · exact absurd h (by simp)

theorem aux_parse_inv {pt f : String} {d : List (String × Option String)}
    (h : (AUXProduct pt none).parse_filename f = some d) :
    ∃ c1 c2 c3 c4 : List Char,
      d = [("file_class", some ⟨c1⟩), ("validity_start", some ⟨c2⟩),
           ("validity_stop", some ⟨c3⟩), ("version", some ⟨c4⟩)] ∧
      c1.length = 4 ∧ c2.length = 16 ∧ c3.length = 16 ∧ c4.length = 4 := by
  unfold EOFProduct.parse_filename at h
  rw [aux_pattern] at h
  split at h
  · rename_i g rest hmat
    obtain ⟨c1, c2, c3, c4, hg, h1, h2, h3, h4⟩ :=
      aux_full_inv (altend_hasGroups ".EOF" ".ZIP") hmat
    simp only [Option.some.injEq] at h
    have hng : (Regex.seq (joinSep (auxParts pt))
        (.seq (.alt (slit ".EOF") (slit ".ZIP")) .endAnchor)).namedGroups =
        ["file_class", "validity_start", "validity_stop", "version"] := by
      simp [Regex.namedGroups, aux_base_namedGroups, altend_namedGroups, auxParts, joinSep, slit, namedGroups_slitL, tsRegex]
    refine ⟨c1, c2, c3, c4, ?_, h1, h2, h3, h4⟩
    rw [← h, hng, hg]
    rfl
  · exact absurd h (by simp)

/-! ## Claim theorems -/

theorem identifyLoop_cons (p : EOFProduct) (a : FSPath) (l : List FSPath) :
    p.identifyLoop (a :: l) =
      if a.isDir then false
      else if (p.filename_pattern.mat (basename a.path).toList).isNone then false
      else p.identifyLoop l := rfl

theorem identify_cons (p : EOFProduct) (first : FSPath) (rest : List FSPath) :
    p.identify (first :: rest) =
      if p.is_multi_file_product && !(p.is_zipped first.path) then
        if (first :: rest).length ≠ 2 then some false
        else some (p.identifyLoop (first :: rest))
      else if (first :: rest).length ≠ 1 then some false
      else if first.isDir then some false
      else some ((p.filename_pattern.mat (basename first.path).toList).isSome) := rfl

theorem identifyLoop_false_of_dir {p : EOFProduct} {l : List FSPath} {q : FSPath}
    (hq : q ∈ l) (hd : q.isDir = true) : p.identifyLoop l = false := by
  induction l with
  | nil => simp at hq
  | cons a l ih =>
    rcases List.mem_cons.mp hq with rfl | hq2
    · rw [identifyLoop_cons, if_pos hd]
    · rw [identifyLoop_cons]
      by_cases ha : a.isDir = true
      · rw [if_pos ha]
      · rw [if_neg ha]
        by_cases hm : (p.filename_pattern.mat (basename a.path).toList).isNone = true
        · rw [if_pos hm]
        · rw [if_neg hm]
          exact ih hq2

/-- C2: for every descriptor and every nonempty candidate path set, `identify`
returns `false` (it does not raise) whenever the number of paths differs from
the required count (2 for a multi-file product whose first path is not a zip,
1 otherwise), and returns `false` whenever any supplied path is a directory. -/
theorem c2_identify_count_and_dirs (p : EOFProduct) (first : FSPath)
    (rest : List FSPath) :
    ((first :: rest).length ≠
        (if p.is_multi_file_product && !(p.is_zipped first.path) then 2 else 1) →
      p.identify (first :: rest) = some false) ∧
    (∀ q ∈ first :: rest, q.isDir = true → p.identify (first :: rest) = some false) := by
  constructor
  · intro hlen
    rw [identify_cons]
    by_cases hC : (p.is_multi_file_product && !(p.is_zipped first.path)) = true
    · rw [if_pos hC] at hlen ⊢
      rw [if_pos hlen]
    · rw [if_neg hC] at hlen ⊢
      rw [if_pos hlen]
  · intro q hq hd
    rw [identify_cons]
    by_cases hC : (p.is_multi_file_product && !(p.is_zipped first.path)) = true
    · rw [if_pos hC]
      by_cases hlen : (first :: rest).length ≠ 2
      · rw [if_pos hlen]
      · rw [if_neg hlen]
        rw [identifyLoop_false_of_dir hq hd]
    · rw [if_neg hC]
      by_cases hlen : (first :: rest).length ≠ 1
      · rw [if_pos hlen]
      · rw [if_neg hlen]
        have hrest : rest = [] := by
          simp only [ne_eq, List.length_cons, not_not] at hlen
          exact List.eq_nil_of_length_eq_zero (by omega)
        subst hrest
        have : q = first := by simpa using hq
        subst this
        rw [if_pos hd]

/-- Witness for C2 at a concrete multi-file descriptor: a single path is the
wrong count, and a directory pair is rejected. -/
theorem c2_witness :
    (EarthCAREProduct "MSI_NOM_1B" none none).identify [⟨"a.h5", false⟩] = some false ∧
    (EarthCAREProduct "MSI_NOM_1B" none none).identify
      [⟨"b.h5", false⟩, ⟨"c", true⟩] = some false := by
  constructor
  · exact (c2_identify_count_and_dirs (EarthCAREProduct "MSI_NOM_1B" none none)
      ⟨"a.h5", false⟩ []).1 (by decide)
  · exact (c2_identify_count_and_dirs (EarthCAREProduct "MSI_NOM_1B" none none)
      ⟨"b.h5", false⟩ [⟨"c", true⟩]).2 ⟨"c", true⟩ (by simp) rfl

/-- C5: the component-path resolution of `read_xml_component`: zipped with no
explicit component gives the stripped basename plus the descriptor extension
(empty when none); zipped with an explicit component on a non-multi-file
product nests it under the stripped basename directory; unzipped joins an
explicit component under the primary path, and otherwise parses the primary
path itself. -/
theorem c5_component_locations (p : EOFProduct) (fp cp : String) :
    (p.is_zipped fp = true →
      read_xml_component_location p fp none =
        .zipEntry fp ((splitext (basename fp)).1 ++
          (match p.extension with | some ext => ext | none => ""))) ∧
    (p.is_zipped fp = true → p.is_multi_file_product = false →
      read_xml_component_location p fp (some cp) =
        .zipEntry fp (pjoin (splitext (basename fp)).1 cp)) ∧
    (p.is_zipped fp = false →
      read_xml_component_location p fp (some cp) = .plainFile (pjoin fp cp)) ∧
    (p.is_zipped fp = false →
      read_xml_component_location p fp none = .plainFile fp) := by
  refine ⟨fun hz => ?_, fun hz hm => ?_, fun hz => ?_, fun hz => ?_⟩ <;>
    simp [read_xml_component_location, hz]
  intro hm2
  rw [hm] at hm2
  simp at hm2

/-- Witness for C5 on a concrete zipped and unzipped case. -/
theorem c5_witness :
    read_xml_component_location (AUXProduct "AUX_ORBPRE" none) "/x/P.ZIP" none =
      .zipEntry "/x/P.ZIP" "P.EOF" ∧
    read_xml_component_location (AUXProduct "AUX_ORBPRE" none) "/x/P.ZIP" (some "c.HDR") =
      .zipEntry "/x/P.ZIP" "P/c.HDR" ∧
    read_xml_component_location (EarthCAREProduct "MSI_NOM_1B" none none) "/x/P"
      (some "c.HDR") = .plainFile "/x/P/c.HDR" ∧
    read_xml_component_location (EarthCAREProduct "MSI_NOM_1B" none none) "/x/P.HDR"
      none = .plainFile "/x/P.HDR" := by
  have h1 := (c5_component_locations (AUXProduct "AUX_ORBPRE" none) "/x/P.ZIP" "c.HDR").1
    (by decide)
  have h2 := (c5_component_locations (AUXProduct "AUX_ORBPRE" none) "/x/P.ZIP" "c.HDR").2.1
    (by decide) (by decide)
  have h3 := (c5_component_locations (EarthCAREProduct "MSI_NOM_1B" none none) "/x/P"
    "c.HDR").2.2.1 (by decide)
  have h4 := (c5_component_locations (EarthCAREProduct "MSI_NOM_1B" none none) "/x/P.HDR"
    "c.HDR").2.2.2 (by decide)
  exact ⟨by rw [h1]; decide, by rw [h2]; decide, by rw [h3]; decide, by rw [h4]⟩

/-- C7: when the input is not already a zip, `export_zip` targets the path
computed from `physical_name` (descriptor extension stripped, `.ZIP`
appended, under the absolute target directory); if a file already exists
there the call fails and the filesystem is unchanged (no silent overwrite),
otherwise the archive is created at exactly that path. -/
theorem c7_export_zip_no_overwrite (p : EOFProduct)
    (physical_name cwd target_path p0 : String) (rest : List String) (fs : FS)
    (tf : String) (hz : p.is_zipped p0 = false)
    (htf : tf = (match p.extension with
                 | some ext =>
                   if ext ≠ "" then
                     strDropRight (pjoin (abspath cwd target_path) physical_name) ext.length
                   else pjoin (abspath cwd target_path) physical_name
                 | none => pjoin (abspath cwd target_path) physical_name) ++ ".ZIP") :
    (fs tf = true →
      p.export_zip physical_name cwd target_path (p0 :: rest) fs = (none, fs)) ∧
    (fs tf = false →
      p.export_zip physical_name cwd target_path (p0 :: rest) fs =
        (some tf, fun q => q = tf || fs q)) := by
  subst htf
  constructor
  · intro hex
    simp only [ne_eq, ite_not] at hex
    simp [EOFProduct.export_zip, hz, compress, hex]
  · intro hex
    simp only [ne_eq, ite_not] at hex
    simp [EOFProduct.export_zip, hz, compress, hex]

/-- Witness for C7: a concrete `.EOF` product, with and without a
pre-existing archive at the computed target path. -/
theorem c7_witness :
    (AUXProduct "AUX_ORBPRE" none).export_zip "X.EOF" "/c" "/t" ["/in/a.EOF"]
      (fun q => decide (q = "/t/X.ZIP")) = (none, fun q => decide (q = "/t/X.ZIP")) ∧
    ((AUXProduct "AUX_ORBPRE" none).export_zip "X.EOF" "/c" "/t" ["/in/a.EOF"]
      (fun _ => false)).1 = some "/t/X.ZIP" := by
  have h1 := (c7_export_zip_no_overwrite (AUXProduct "AUX_ORBPRE" none) "X.EOF" "/c" "/t"
    "/in/a.EOF" [] (fun q => decide (q = "/t/X.ZIP")) "/t/X.ZIP" (by decide) (by decide)).1 (by decide)
  have h2 := (c7_export_zip_no_overwrite (AUXProduct "AUX_ORBPRE" none) "X.EOF" "/c" "/t"
    "/in/a.EOF" [] (fun _ => false) "/t/X.ZIP" (by decide) (by decide)).2 rfl
  exact ⟨h1, by rw [h2]⟩

/-- C4 (counterexample): at a two-path input whose paths have different stems,
`analyze` derives the representative name (and `product_name`) from the FIRST
path, not from the second path as the claim states. -/
theorem c4_counterexample :
    ((EarthCAREProduct "MSI_NOM_1B" none none).analyze
        ["/d/ECA_ABCD_MSI_NOM_1B_20230101T000000Z_20230101T010000Z_00001A.h5",
         "/d/ECA_WXYZ_MSI_NOM_1B_20230101T000000Z_20230101T010000Z_00002B.HDR"]
        true (fun _ => none)).map (fun pr => pr.core.product_name) =
      some (some "ECA_ABCD_MSI_NOM_1B_20230101T000000Z_20230101T010000Z_00001A") ∧
    some "ECA_ABCD_MSI_NOM_1B_20230101T000000Z_20230101T010000Z_00001A" ≠
      some (splitext (basename ((splitext
        "/d/ECA_WXYZ_MSI_NOM_1B_20230101T000000Z_20230101T010000Z_00002B.HDR").1 ++
        ".HDR"))).1 := by
  exact ⟨by decide, by decide⟩

/-- C4 (amended): with more than one path the representative filename used
for matching and `product_name` is the FIRST path with its extension replaced
by `.HDR`; with a single path, that sole path. -/
theorem c4_representative_filename (p : EOFProduct) (fo : Bool)
    (fs : XmlLocation → Option XmlNode) :
    (∀ p0 p1 rest props, p.analyze (p0 :: p1 :: rest) fo fs = some props →
       props.core.product_name =
         some (splitext (basename ((splitext p0).1 ++ ".HDR"))).1 ∧
       (p.parse_filename ((splitext p0).1 ++ ".HDR")).isSome = true) ∧
    (∀ q props, p.analyze [q] fo fs = some props →
       props.core.product_name = some (splitext (basename q)).1 ∧
       (p.parse_filename q).isSome = true) := by
  constructor
  · intro p0 p1 rest props h
    obtain ⟨p0h, resth, attrs, vs, vstart, vstop, fcb, vn, orbn, props0, heq, hparse,
      hlvs, hvst, hstop, hfcb, hver, horb, hprops0, hfin⟩ := analyze_inversion h
    injection heq with he1 he2
    subst he1
    subst he2
    have hcond : (p0 :: p1 :: rest).length > 1 := by simp
    rw [if_pos hcond] at hparse hprops0
    have hpn : props0.core.product_name =
        some (splitext (basename ((splitext p0).1 ++ ".HDR"))).1 := by
      rw [hprops0]
    have hps : (p.parse_filename ((splitext p0).1 ++ ".HDR")).isSome = true := by
      rw [← parse_filename_basename, hparse]
      rfl
    refine ⟨?_, hps⟩
    by_cases hfo : fo
    · rw [if_pos hfo] at hfin
      rw [hfin, hpn]
    · rw [if_neg hfo] at hfin
      obtain ⟨root, -, hhdr⟩ := hfin
      rw [(analyze_eof_header_preserves hhdr).1, hpn]
  · intro q props h
    obtain ⟨p0h, resth, attrs, vs, vstart, vstop, fcb, vn, orbn, props0, heq, hparse,
      hlvs, hvst, hstop, hfcb, hver, horb, hprops0, hfin⟩ := analyze_inversion h
    injection heq with he1 he2
    subst he1
    subst he2
    have hcond : ¬((q :: ([] : List String)).length > 1) := by simp
    rw [if_neg hcond] at hparse hprops0
    have hpn : props0.core.product_name = some (splitext (basename q)).1 := by
      rw [hprops0]
    have hps : (p.parse_filename q).isSome = true := by
      rw [← parse_filename_basename, hparse]
      rfl
    refine ⟨?_, hps⟩
    by_cases hfo : fo
    · rw [if_pos hfo] at hfin
      rw [hfin, hpn]
    · rw [if_neg hfo] at hfin
      obtain ⟨root, -, hhdr⟩ := hfin
      rw [(analyze_eof_header_preserves hhdr).1, hpn]

/-- Witness for the amended C4 on a concrete two-path and one-path input. -/
theorem c4_witness :
    ∃ props props2,
      (EarthCAREProduct "MSI_NOM_1B" none none).analyze
        ["/d/ECA_ABCD_MSI_NOM_1B_20230101T000000Z_20230101T010000Z_00001A.h5",
         "/d/ECA_WXYZ_MSI_NOM_1B_20230101T000000Z_20230101T010000Z_00002B.HDR"]
        true (fun _ => none) = some props ∧
      props.core.product_name =
        some "ECA_ABCD_MSI_NOM_1B_20230101T000000Z_20230101T010000Z_00001A" ∧
      (EarthCAREProduct "MSI_NOM_1B" none none).analyze
        ["ECA_WXYZ_MSI_NOM_1B_20230101T000000Z_20230101T010000Z_00002B.EOF"]
        true (fun _ => none) = some props2 ∧
      props2.core.product_name =
        some "ECA_WXYZ_MSI_NOM_1B_20230101T000000Z_20230101T010000Z_00002B" := by
  have h1 : ((EarthCAREProduct "MSI_NOM_1B" none none).analyze
      ["/d/ECA_ABCD_MSI_NOM_1B_20230101T000000Z_20230101T010000Z_00001A.h5",
       "/d/ECA_WXYZ_MSI_NOM_1B_20230101T000000Z_20230101T010000Z_00002B.HDR"]
      true (fun _ => none)).isSome = true := by decide
  have h2 : ((EarthCAREProduct "MSI_NOM_1B" none none).analyze
      ["ECA_WXYZ_MSI_NOM_1B_20230101T000000Z_20230101T010000Z_00002B.EOF"]
      true (fun _ => none)).isSome = true := by decide
  obtain ⟨props, hp⟩ := Option.isSome_iff_exists.mp h1
  obtain ⟨props2, hp2⟩ := Option.isSome_iff_exists.mp h2
  have r1 := ((c4_representative_filename (EarthCAREProduct "MSI_NOM_1B" none none)
    true (fun _ => none)).1
    "/d/ECA_ABCD_MSI_NOM_1B_20230101T000000Z_20230101T010000Z_00001A.h5"
    "/d/ECA_WXYZ_MSI_NOM_1B_20230101T000000Z_20230101T010000Z_00002B.HDR" [] props hp).1
  have r2 := ((c4_representative_filename (EarthCAREProduct "MSI_NOM_1B" none none)
    true (fun _ => none)).2
    "ECA_WXYZ_MSI_NOM_1B_20230101T000000Z_20230101T010000Z_00002B.EOF" props2 hp2).1
  exact ⟨props, props2, hp, by rw [r1]; decide, hp2, by rw [r2]; decide⟩

theorem mat_opt_isSome (a : Regex) (s : List Char) :
    ((Regex.opt a).mat s).isSome = true := by
  have hd : (Regex.opt a).mat s = match a.mat s with
    | some r => some r
    | none => some ([], s) := rfl
  rw [hd]
  cases a.mat s with
  | none => rfl
  | some r => rfl

theorem mat_seq_isSome (a b : Regex) (hb : ∀ r, (b.mat r).isSome = true)
    (s : List Char) : ((Regex.seq a b).mat s).isSome = (a.mat s).isSome := by
  have hd : (Regex.seq a b).mat s = match a.mat s with
    | some (g1, s1) =>
      (match b.mat s1 with
       | some (g2, s2) => some (g1 ++ g2, s2)
       | none => none)
    | none => none := rfl
  rw [hd]
  cases ha : a.mat s with
  | none => rfl
  | some gs =>
    obtain ⟨g1, s1⟩ := gs
    cases hbm : b.mat s1 with
    | none =>
      have hsome := hb s1
      rw [hbm] at hsome
      exact absurd hsome (by simp)
    | some gs2 =>
      obtain ⟨g2, s2⟩ := gs2
      show (match b.mat s1 with
            | some (g2, s2) => some (g1 ++ g2, s2)
            | none => none).isSome =
        (some (g1, s1) : Option (List (String × String) × List Char)).isSome
      rw [hbm]
      rfl

theorem flex_mat_isSome (base : Regex) (s : List Char) :
    ((Regex.seq base (.opt (.seq (slit ".ZIP") .endAnchor))).mat s).isSome =
      (base.mat s).isSome :=
  mat_seq_isSome base _ (fun r => mat_opt_isSome _ r) s

/-- C10: a multi-file descriptor with flexible zip policy (extension none,
zipped none) compiles its pattern with the end anchor only inside the
optional `\.ZIP$` group; consequently `parse_filename` succeeds exactly when
the base grammar matches a prefix of the basename — whatever follows that
prefix — and `identify` accepts any pair of non-directory files with such
basenames.  All level-0/1/2 registry entries are of this shape. -/
theorem c10_flexible_end_anchor (pt : String) (base : Regex) :
    ((EOFProduct.init pt base none none).filename_pattern =
       .seq base (.opt (.seq (slit ".ZIP") .endAnchor)) ∧
     (EOFProduct.init pt base none none).is_multi_file_product = true) ∧
    (∀ f : String, ((EOFProduct.init pt base none none).parse_filename f).isSome =
       (base.mat (basename f).toList).isSome) ∧
    (∀ pt2 ∈ L0_PRODUCT_TYPES ++ L1_PRODUCT_TYPES ++ L2_PRODUCT_TYPES,
       EarthCAREProduct pt2 none none = EOFProduct.init pt2 (joinSep (ecaParts pt2)) none none) ∧
    (∀ q1 q2 : FSPath, q1.isDir = false → q2.isDir = false →
       (EOFProduct.init pt base none none).is_zipped q1.path = false →
       (base.mat (basename q1.path).toList).isSome = true →
       (base.mat (basename q2.path).toList).isSome = true →
       (EOFProduct.init pt base none none).identify [q1, q2] = some true) := by
  refine ⟨⟨rfl, rfl⟩, ?_, fun pt2 _ => rfl, ?_⟩
  · intro f
    unfold EOFProduct.parse_filename
    rw [show (EOFProduct.init pt base none none).filename_pattern =
      .seq base (.opt (.seq (slit ".ZIP") .endAnchor)) from rfl]
    have h := flex_mat_isSome base (basename f).toList
    match hm : (Regex.seq base (.opt (.seq (slit ".ZIP") .endAnchor))).mat
        (basename f).toList with
    | none =>
      rw [hm] at h
      simpa using h
    | some gr =>
      obtain ⟨g, r⟩ := gr
      rw [hm] at h
      simpa using h
  · intro q1 q2 hd1 hd2 hz1 hm1 hm2
    rw [identify_cons]
    have hc : ((EOFProduct.init pt base none none).is_multi_file_product &&
        !(EOFProduct.init pt base none none).is_zipped q1.path) = true := by
      rw [show (EOFProduct.init pt base none none).is_multi_file_product = true from rfl, hz1]
      rfl
    rw [if_pos hc, if_neg (by simp)]
    have hl1 : ((EOFProduct.init pt base none none).filename_pattern.mat
        (basename q1.path).toList).isNone = false := by
      rw [show (EOFProduct.init pt base none none).filename_pattern =
        .seq base (.opt (.seq (slit ".ZIP") .endAnchor)) from rfl]
      have h := flex_mat_isSome base (basename q1.path).toList
      rw [hm1] at h
      simp [Option.isNone_eq_false_iff, Option.isSome_iff_ne_none] at h ⊢
      exact h
    have hl2 : ((EOFProduct.init pt base none none).filename_pattern.mat
        (basename q2.path).toList).isNone = false := by
      rw [show (EOFProduct.init pt base none none).filename_pattern =
        .seq base (.opt (.seq (slit ".ZIP") .endAnchor)) from rfl]
      have h := flex_mat_isSome base (basename q2.path).toList
      rw [hm2] at h
      simp [Option.isNone_eq_false_iff, Option.isSome_iff_ne_none] at h ⊢
      exact h
    rw [identifyLoop_cons, if_neg (by rw [hd1]; exact Bool.false_ne_true),
      if_neg (by rw [hl1]; exact Bool.false_ne_true)]
    rw [identifyLoop_cons, if_neg (by rw [hd2]; exact Bool.false_ne_true),
      if_neg (by rw [hl2]; exact Bool.false_ne_true)]
    rfl

/-- Witness for C10: the MSI level-1 descriptor accepts the `.HDR` sidecar
name, a data-file name, and a name with arbitrary trailing characters, and
`identify` accepts the sidecar pair. -/
theorem c10_witness :
    ((EarthCAREProduct "MSI_NOM_1B" none none).parse_filename
      "ECA_ABCD_MSI_NOM_1B_20230101T000000Z_20230101T010000Z_00001A!!arbitrary-GARBAGE").isSome
      = true ∧
    (EarthCAREProduct "MSI_NOM_1B" none none).identify
      [⟨"ECA_ABCD_MSI_NOM_1B_20230101T000000Z_20230101T010000Z_00001A.h5", false⟩,
       ⟨"ECA_ABCD_MSI_NOM_1B_20230101T000000Z_20230101T010000Z_00001A.HDR", false⟩]
      = some true := by
  have h := c10_flexible_end_anchor "MSI_NOM_1B" (joinSep (ecaParts "MSI_NOM_1B"))
  constructor
  · show ((EOFProduct.init "MSI_NOM_1B" (joinSep (ecaParts "MSI_NOM_1B")) none
        none).parse_filename
      "ECA_ABCD_MSI_NOM_1B_20230101T000000Z_20230101T010000Z_00001A!!arbitrary-GARBAGE").isSome
      = true
    rw [h.2.1 "ECA_ABCD_MSI_NOM_1B_20230101T000000Z_20230101T010000Z_00001A!!arbitrary-GARBAGE"]
    decide
  · exact h.2.2.2
      ⟨"ECA_ABCD_MSI_NOM_1B_20230101T000000Z_20230101T010000Z_00001A.h5", false⟩
      ⟨"ECA_ABCD_MSI_NOM_1B_20230101T000000Z_20230101T010000Z_00001A.HDR", false⟩
      rfl rfl (by decide) (by decide) (by decide)

/-- C9: `parse_filename` matches against the basename only (the directory
part never affects the result), returns `none` exactly when the grammar does
not match the basename, and for every registered descriptor the returned
group map binds every listed group to a captured (non-`None`, non-empty)
string — the optional zip-suffix groups are unnamed and never appear. -/
theorem c9_parse_filename_contract :
    (∀ (p : EOFProduct) (f : String), p.parse_filename f = p.parse_filename (basename f)) ∧
    (∀ (p : EOFProduct) (f : String),
       p.parse_filename f = none ↔ p.filename_pattern.mat (basename f).toList = none) ∧
    (∀ e ∈ _product_types, ∀ (f : String) (d : List (String × Option String)),
       e.2.parse_filename f = some d →
       ∀ nm v, (nm, v) ∈ d → ∃ s : String, v = some s ∧ s ≠ "") := by
  refine ⟨fun p f => (parse_filename_basename p f).symm, fun p f => ?_, ?_⟩
  · unfold EOFProduct.parse_filename
    cases hm : p.filename_pattern.mat (basename f).toList with
    | none => simp
    | some gr =>
      obtain ⟨g, r⟩ := gr
      simp
  · intro e he f d hd nm v hmem
    rcases mem_product_types_cases he with ⟨pt, rfl⟩ | ⟨pt, rfl⟩ | ⟨pt, rfl⟩
    · obtain ⟨c1, c2, c3, c4, c5, hdg, h1, h2, h3, h4, h5⟩ := ec_flex_parse_inv hd
      subst hdg
      simp only [List.mem_cons, List.not_mem_nil, or_false, Prod.mk.injEq] at hmem
      rcases hmem with ⟨-, rfl⟩ | ⟨-, rfl⟩ | ⟨-, rfl⟩ | ⟨-, rfl⟩ | ⟨-, rfl⟩
      · exact ⟨⟨c1⟩, rfl, mk_ne_empty_of_length h1 (by norm_num)⟩
      · exact ⟨⟨c2⟩, rfl, mk_ne_empty_of_length h2 (by norm_num)⟩
      · exact ⟨⟨c3⟩, rfl, mk_ne_empty_of_length h3 (by norm_num)⟩
      · exact ⟨⟨c4⟩, rfl, mk_ne_empty_of_length h4 (by norm_num)⟩
      · exact ⟨⟨c5⟩, rfl, mk_ne_empty_of_length h5 (by norm_num)⟩
    · obtain ⟨c1, c2, c3, c4, c5, hdg, h1, h2, h3, h4, h5⟩ := ec_eof_parse_inv hd
      subst hdg
      simp only [List.mem_cons, List.not_mem_nil, or_false, Prod.mk.injEq] at hmem
      rcases hmem with ⟨-, rfl⟩ | ⟨-, rfl⟩ | ⟨-, rfl⟩ | ⟨-, rfl⟩ | ⟨-, rfl⟩
      · exact ⟨⟨c1⟩, rfl, mk_ne_empty_of_length h1 (by norm_num)⟩
      · exact ⟨⟨c2⟩, rfl, mk_ne_empty_of_length h2 (by norm_num)⟩
      · exact ⟨⟨c3⟩, rfl, mk_ne_empty_of_length h3 (by norm_num)⟩
      · exact ⟨⟨c4⟩, rfl, mk_ne_empty_of_length h4 (by norm_num)⟩
      · exact ⟨⟨c5⟩, rfl, mk_ne_empty_of_length h5 (by norm_num)⟩
    · obtain ⟨c1, c2, c3, c4, hdg, h1, h2, h3, h4⟩ := aux_parse_inv hd
      subst hdg
      simp only [List.mem_cons, List.not_mem_nil, or_false, Prod.mk.injEq] at hmem
      rcases hmem with ⟨-, rfl⟩ | ⟨-, rfl⟩ | ⟨-, rfl⟩ | ⟨-, rfl⟩
      · exact ⟨⟨c1⟩, rfl, mk_ne_empty_of_length h1 (by norm_num)⟩
      · exact ⟨⟨c2⟩, rfl, mk_ne_empty_of_length h2 (by norm_num)⟩
      · exact ⟨⟨c3⟩, rfl, mk_ne_empty_of_length h3 (by norm_num)⟩
      · exact ⟨⟨c4⟩, rfl, mk_ne_empty_of_length h4 (by norm_num)⟩

theorem atl_nom_mem_registry :
    ("ATL_NOM_0_", EarthCAREProduct "ATL_NOM_0_" none none) ∈ _product_types := by
  have h0 : ("ATL_NOM_0_", EarthCAREProduct "ATL_NOM_0_" none none) ∈
      (L0_PRODUCT_TYPES.map fun pt => (pt, EarthCAREProduct pt none none)) :=
    List.mem_map.mpr ⟨"ATL_NOM_0_", by simp [L0_PRODUCT_TYPES], rfl⟩
  unfold _product_types
  exact List.mem_append_left _ (List.mem_append_left _ (List.mem_append_left _
    (List.mem_append_left _ (List.mem_append_left _ h0))))

/-- Witness for C9: the directory part is irrelevant on a concrete path, and
a concrete successful parse for a registered descriptor binds `file_class` to
the nonempty capture. -/
theorem c9_witness :
    (EarthCAREProduct "ATL_NOM_0_" none none).parse_filename
        "/d/ECA_ABCD_ATL_NOM_0__20230101T000000Z_20230101T010000Z_00001A.h5" =
      (EarthCAREProduct "ATL_NOM_0_" none none).parse_filename
        "ECA_ABCD_ATL_NOM_0__20230101T000000Z_20230101T010000Z_00001A.h5" ∧
    ∃ s : String, (some "ABCD" : Option String) = some s ∧ s ≠ "" := by
  constructor
  · have h := c9_parse_filename_contract.1 (EarthCAREProduct "ATL_NOM_0_" none none)
      "/d/ECA_ABCD_ATL_NOM_0__20230101T000000Z_20230101T010000Z_00001A.h5"
    rw [h]
    have hb : basename "/d/ECA_ABCD_ATL_NOM_0__20230101T000000Z_20230101T010000Z_00001A.h5" =
        "ECA_ABCD_ATL_NOM_0__20230101T000000Z_20230101T010000Z_00001A.h5" := by decide
    rw [hb]
  · have hd : (EarthCAREProduct "ATL_NOM_0_" none none).parse_filename
        "ECA_ABCD_ATL_NOM_0__20230101T000000Z_20230101T010000Z_00001A.h5" =
        some [("file_class", some "ABCD"), ("validity_start", some "20230101T000000Z"),
              ("creation_date", some "20230101T010000Z"), ("orbit_number", some "00001"),
              ("frame_id", some "A")] := by decide
    exact c9_parse_filename_contract.2.2 _ atl_nom_mem_registry
      "ECA_ABCD_ATL_NOM_0__20230101T000000Z_20230101T010000Z_00001A.h5" _ hd
      "file_class" (some "ABCD") (by simp)

/-- C8: for every registered descriptor, whenever `analyze` sets
`earthcare.file_class` it also sets `earthcare.baseline`, and the baseline is
exactly the trailing two characters of the (four-character) file class. -/
theorem c8_baseline_trailing_two :
    ∀ e ∈ _product_types, ∀ (paths : List String) (fo : Bool)
      (fs : XmlLocation → Option XmlNode) (props : Properties) (fc : String),
      e.2.analyze paths fo fs = some props →
      props.earthcare.file_class = some fc →
      props.earthcare.baseline = some (⟨fc.toList.drop (fc.toList.length - 2)⟩ : String) ∧
      fc.length = 4 := by
  intro e he paths fo fs props fc h hfc
  obtain ⟨p0, rest, attrs, vs, vstart, vstop, fcb, vn, orbn, props0, heq, hparse, hlvs,
    hvst, hstop, hfcb, hver, horb, hprops0, hfin⟩ := analyze_inversion h
  have hpfc : props.earthcare.file_class = fcb.1 ∧ props.earthcare.baseline = fcb.2 := by
    by_cases hfo : fo
    · rw [if_pos hfo] at hfin
      rw [hfin, hprops0]
      exact ⟨rfl, rfl⟩
    · rw [if_neg hfo] at hfin
      obtain ⟨root, -, hh⟩ := hfin
      have hp := analyze_eof_header_preserves hh
      rw [hp.2.1, hp.2.2.1, hprops0]
      exact ⟨rfl, rfl⟩
  have main : ∃ c1 : List Char, fcb = (some ⟨c1⟩, some (strDrop2 ⟨c1⟩)) ∧ c1.length = 4 := by
    rcases mem_product_types_cases he with ⟨pt, rfl⟩ | ⟨pt, rfl⟩ | ⟨pt, rfl⟩
    · obtain ⟨c1, c2, c3, c4, c5, hdg, h1, -, -, -, -⟩ := ec_flex_parse_inv hparse
      subst hdg
      have : fieldFileClass
          [("file_class", some ⟨c1⟩), ("validity_start", some ⟨c2⟩),
           ("creation_date", some ⟨c3⟩), ("orbit_number", some ⟨c4⟩),
           ("frame_id", some ⟨c5⟩)] = some (some ⟨c1⟩, some (strDrop2 ⟨c1⟩)) := rfl
      rw [this] at hfcb
      exact ⟨c1, by injection hfcb with hh; exact hh.symm, h1⟩
    · obtain ⟨c1, c2, c3, c4, c5, hdg, h1, -, -, -, -⟩ := ec_eof_parse_inv hparse
      subst hdg
      have : fieldFileClass
          [("file_class", some ⟨c1⟩), ("validity_start", some ⟨c2⟩),
           ("creation_date", some ⟨c3⟩), ("orbit_number", some ⟨c4⟩),
           ("frame_id", some ⟨c5⟩)] = some (some ⟨c1⟩, some (strDrop2 ⟨c1⟩)) := rfl
      rw [this] at hfcb
      exact ⟨c1, by injection hfcb with hh; exact hh.symm, h1⟩
    · obtain ⟨c1, c2, c3, c4, hdg, h1, -, -, -⟩ := aux_parse_inv hparse
      subst hdg
      have : fieldFileClass
          [("file_class", some ⟨c1⟩), ("validity_start", some ⟨c2⟩),
           ("validity_stop", some ⟨c3⟩), ("version", some ⟨c4⟩)] =
          some (some ⟨c1⟩, some (strDrop2 ⟨c1⟩)) := rfl
      rw [this] at hfcb
      exact ⟨c1, by injection hfcb with hh; exact hh.symm, h1⟩
  obtain ⟨c1, hfcb1, hc1⟩ := main
  have hfceq : fc = ⟨c1⟩ := by
    rw [hpfc.1, hfcb1] at hfc
    injection hfc with hh
    exact hh.symm
  subst hfceq
  constructor
  · rw [hpfc.2, hfcb1]
    show _ = some (⟨c1.drop (c1.length - 2)⟩ : String)
    rw [hc1]
    rfl
  · show c1.length = 4
    exact hc1

/-- Witness for C8: a concrete analyzed product whose file class `ABCD`
yields baseline `CD`. -/
theorem c8_witness :
    ∃ props, (EarthCAREProduct "ATL_NOM_0_" none none).analyze
        ["ECA_ABCD_ATL_NOM_0__20230101T000000Z_20230101T010000Z_00001A.h5",
         "ECA_ABCD_ATL_NOM_0__20230101T000000Z_20230101T010000Z_00001A.HDR"]
        true (fun _ => none) = some props ∧
      props.earthcare.file_class = some "ABCD" ∧
      props.earthcare.baseline = some "CD" := by
  obtain ⟨props, hp⟩ := Option.isSome_iff_exists.mp
    (show ((EarthCAREProduct "ATL_NOM_0_" none none).analyze
        ["ECA_ABCD_ATL_NOM_0__20230101T000000Z_20230101T010000Z_00001A.h5",
         "ECA_ABCD_ATL_NOM_0__20230101T000000Z_20230101T010000Z_00001A.HDR"]
        true (fun _ => none)).isSome = true from by decide)
  have hfc : props.earthcare.file_class = some "ABCD" := by
    have h2 : ((EarthCAREProduct "ATL_NOM_0_" none none).analyze
        ["ECA_ABCD_ATL_NOM_0__20230101T000000Z_20230101T010000Z_00001A.h5",
         "ECA_ABCD_ATL_NOM_0__20230101T000000Z_20230101T010000Z_00001A.HDR"]
        true (fun _ => none)).map (fun pr => pr.earthcare.file_class) =
        some (some "ABCD") := by decide
    rw [hp] at h2
    simpa using h2
  have h := c8_baseline_trailing_two _ atl_nom_mem_registry _ true (fun _ => none)
    props "ABCD" hp hfc
  refine ⟨props, hp, hfc, ?_⟩
  rw [h.1]
  decide

theorem headerValues_stop_sentinel {root : XmlNode} {f : HeaderValues} {stN : XmlNode}
    (hn : findPath root (startNodePath root ++
      ["Fixed_Header", "Validity_Period", "Validity_Stop"]) = some stN)
    (ht : stN.text = some "UTC=9999-99-99T99:99:99")
    (hv : headerValues root = some f) : f.validity_stop = DateTime.max := by
  simp only [headerValues] at hv
  split at hv
  · exact absurd hv (by simp)
  · split at hv
    · exact absurd hv (by simp)
    · split at hv
      · exact absurd hv (by simp)
      · split at hv
        · exact absurd hv (by simp)
        · rename_i stN2 hn2
          split at hv
          · exact absurd hv (by simp)
          · rename_i value hval
            split at hv
            · exact absurd hv (by simp)
            · rename_i vstop hstop
              have hsame : stN2 = stN := by
                rw [hn2] at hn
                exact Option.some.inj hn
              subst hsame
              have hvs : value = "UTC=9999-99-99T99:99:99" := by
                rw [hval] at ht
                exact Option.some.inj ht
              rw [if_pos hvs] at hstop
              have hstop2 : vstop = DateTime.max := (Option.some.inj hstop).symm
              subst hstop2
              split at hv
              · exact absurd hv (by simp)
              · split at hv
                · exact absurd hv (by simp)
                · split at hv
                  · exact absurd hv (by simp)
                  · split at hv
                    · exact absurd hv (by simp)
                    · split at hv
                      · exact absurd hv (by simp)
                      · split at hv
                        · exact absurd hv (by simp)
                        · split at hv
                          · exact absurd hv (by simp)
                          · simp only [Option.some.injEq] at hv
                            rw [← hv]

/-- C3: the filename validity-stop sentinel `99999999T999999Z` (in `analyze`)
and the header sentinel `UTC=9999-99-99T99:99:99` (in the header analyzer)
both map `validity_stop` to the same internal open-ended value
`datetime.max`, for every descriptor / header document in which a validity
stop occurs. -/
theorem c3_sentinel_infinite_stop :
    (∀ (p : EOFProduct) (paths : List String) (fs : XmlLocation → Option XmlNode)
       (props : Properties) (attrs : List (String × Option String)) (p0 : String)
       (rest : List String),
       paths = p0 :: rest →
       p.parse_filename (basename
         (if (p0 :: rest).length > 1 then (splitext p0).1 ++ ".HDR" else p0)) = some attrs →
       attrs.lookup "validity_stop" = some (some "99999999T999999Z") →
       p.analyze paths true fs = some props →
       props.core.validity_stop = some DateTime.max) ∧
    (∀ (root : XmlNode) (props props2 : Properties) (stN : XmlNode),
       findPath root (startNodePath root ++
         ["Fixed_Header", "Validity_Period", "Validity_Stop"]) = some stN →
       stN.text = some "UTC=9999-99-99T99:99:99" →
       _analyze_eof_header root props = some props2 →
       props2.core.validity_stop = some DateTime.max) := by
  constructor
  · intro p paths fs props attrs p0 rest hpaths hparse hsent h
    subst hpaths
    obtain ⟨p0h, resth, attrs2, vs, vstart, vstop, fcb, vn, orbn, props0, heq, hparse2,
      hlvs, hvst, hstop, hfcb, hver, horb, hprops0, hfin⟩ := analyze_inversion h
    injection heq with he1 he2
    subst he1
    subst he2
    have hattrs : attrs2 = attrs := Option.some.inj (hparse2.symm.trans hparse)
    subst hattrs
    have hvstop : vstop = some DateTime.max := by
      have hfs : fieldStop attrs2 = some (some DateTime.max) := by
        unfold fieldStop
        rw [hsent]
        rfl
      rw [hfs] at hstop
      exact (Option.some.inj hstop).symm
    rw [if_pos rfl] at hfin
    rw [hfin, hprops0]
    rw [hvstop]
  · intro root props props2 stN hn ht h
    unfold _analyze_eof_header at h
    split at h
    · exact absurd h (by simp)
    · rename_i f hf
      simp only [Option.some.injEq] at h
      rw [← h]
      simp only []
      rw [headerValues_stop_sentinel hn ht hf]

/-- Witness for C3: an auxiliary orbit file named with the all-nines stop and
a header document carrying the all-nines stop both yield `datetime.max`. -/
theorem c3_witness :
    ∃ props props2,
      (AUXProduct "AUX_ORBPRE" none).analyze
          ["ECA_ABCD_AUX_ORBPRE_20230101T000000Z_99999999T999999Z_0001.EOF"]
          true (fun _ => none) = some props ∧
      props.core.validity_stop = some DateTime.max ∧
      _analyze_eof_header
        (XmlNode.elem "Earth_Explorer_Header" none
          [XmlNode.elem "Fixed_Header" none
            [XmlNode.elem "Validity_Period" none
              [XmlNode.elem "Validity_Start" (some "UTC=2023-01-01T00:00:00") [],
               XmlNode.elem "Validity_Stop" (some "UTC=9999-99-99T99:99:99") []],
             XmlNode.elem "Source" none
              [XmlNode.elem "Creation_Date" (some "UTC=2023-01-02T00:00:00") [],
               XmlNode.elem "System" (some "PDGS") [],
               XmlNode.elem "Creator" (some "ECGP") [],
               XmlNode.elem "Creator_Version" (some "1.0") []]]])
        { core := {}, earthcare := {} } = some props2 ∧
      props2.core.validity_stop = some DateTime.max := by
  obtain ⟨props, hp⟩ := Option.isSome_iff_exists.mp
    (show ((AUXProduct "AUX_ORBPRE" none).analyze
        ["ECA_ABCD_AUX_ORBPRE_20230101T000000Z_99999999T999999Z_0001.EOF"]
        true (fun _ => none)).isSome = true from by decide)
  obtain ⟨props2, hp2⟩ := Option.isSome_iff_exists.mp
    (show (_analyze_eof_header
        (XmlNode.elem "Earth_Explorer_Header" none
          [XmlNode.elem "Fixed_Header" none
            [XmlNode.elem "Validity_Period" none
              [XmlNode.elem "Validity_Start" (some "UTC=2023-01-01T00:00:00") [],
               XmlNode.elem "Validity_Stop" (some "UTC=9999-99-99T99:99:99") []],
             XmlNode.elem "Source" none
              [XmlNode.elem "Creation_Date" (some "UTC=2023-01-02T00:00:00") [],
               XmlNode.elem "System" (some "PDGS") [],
               XmlNode.elem "Creator" (some "ECGP") [],
               XmlNode.elem "Creator_Version" (some "1.0") []]]])
        { core := {}, earthcare := {} }).isSome = true from by decide)
  refine ⟨props, props2, hp, ?_, hp2, ?_⟩
  · exact c3_sentinel_infinite_stop.1 (AUXProduct "AUX_ORBPRE" none)
      ["ECA_ABCD_AUX_ORBPRE_20230101T000000Z_99999999T999999Z_0001.EOF"]
      (fun _ => none) props
      [("file_class", some "ABCD"), ("validity_start", some "20230101T000000Z"),
       ("validity_stop", some "99999999T999999Z"), ("version", some "0001")]
      "ECA_ABCD_AUX_ORBPRE_20230101T000000Z_99999999T999999Z_0001.EOF" []
      rfl (by decide) (by decide) hp
  · exact c3_sentinel_infinite_stop.2
      (XmlNode.elem "Earth_Explorer_Header" none
        [XmlNode.elem "Fixed_Header" none
          [XmlNode.elem "Validity_Period" none
            [XmlNode.elem "Validity_Start" (some "UTC=2023-01-01T00:00:00") [],
             XmlNode.elem "Validity_Stop" (some "UTC=9999-99-99T99:99:99") []],
           XmlNode.elem "Source" none
            [XmlNode.elem "Creation_Date" (some "UTC=2023-01-02T00:00:00") [],
             XmlNode.elem "System" (some "PDGS") [],
             XmlNode.elem "Creator" (some "ECGP") [],
             XmlNode.elem "Creator_Version" (some "1.0") []]]])
      { core := {}, earthcare := {} } props2
      (XmlNode.elem "Validity_Stop" (some "UTC=9999-99-99T99:99:99") [])
      rfl rfl hp2

/-! ## Round-trip support -/

theorem word_ne_slash {c : Char} (h : CClass.word.matches c = true) : c ≠ '/' := by
  intro he
  subst he
  exact absurd h (by decide)

theorem digit_ne_slash {c : Char} (h : CClass.digit.matches c = true) : c ≠ '/' := by
  intro he
  subst he
  exact absurd h (by decide)

theorem upper_ne_slash {c : Char} (h : CClass.upper.matches c = true) : c ≠ '/' := by
  intro he
  subst he
  exact absurd h (by decide)

theorem toList_append_eq (a b : String) : (a ++ b).toList = a.toList ++ b.toList := rfl

/-- Round-trip of the flexible (multi-file) `EarthCAREProduct` grammar on a
synthesized filename. -/
theorem ec_flex_roundtrip (pt fc d8a d6a d8b d6b orb fr : String)
    (hpt : pt.toList.all (fun c => c ≠ '/') = true)
    (hfc : fc.toList.length = 4) (hfcw : fc.toList.all CClass.word.matches = true)
    (h8a : d8a.toList.length = 8) (h8ad : d8a.toList.all CClass.digit.matches = true)
    (h6a : d6a.toList.length = 6) (h6ad : d6a.toList.all CClass.digit.matches = true)
    (h8b : d8b.toList.length = 8) (h8bd : d8b.toList.all CClass.digit.matches = true)
    (h6b : d6b.toList.length = 6) (h6bd : d6b.toList.all CClass.digit.matches = true)
    (horb : orb.toList.length = 5) (horbd : orb.toList.all CClass.digit.matches = true)
    (hfr : fr.toList.length = 1) (hfru : fr.toList.all CClass.upper.matches = true) :
    (EarthCAREProduct pt none none).parse_filename
      ("ECA_" ++ fc ++ "_" ++ pt ++ "_" ++ (d8a ++ "T" ++ d6a ++ "Z") ++ "_" ++
        (d8b ++ "T" ++ d6b ++ "Z") ++ "_" ++ orb ++ fr) =
      some [("file_class", some fc),
            ("validity_start", some (d8a ++ "T" ++ d6a ++ "Z")),
            ("creation_date", some (d8b ++ "T" ++ d6b ++ "Z")),
            ("orbit_number", some orb), ("frame_id", some fr)] := by
  have lE : ("ECA_" : String).toList = 'E' :: 'C' :: 'A' :: '_' :: [] := rfl
  have lE2 : ("ECA" : String).toList = 'E' :: 'C' :: 'A' :: [] := rfl
  have lU : ("_" : String).toList = ['_'] := rfl
  have lT : ("T" : String).toList = ['T'] := rfl
  have lZ : ("Z" : String).toList = ['Z'] := rfl
  have hshape : ("ECA_" ++ fc ++ "_" ++ pt ++ "_" ++ (d8a ++ "T" ++ d6a ++ "Z") ++ "_" ++
      (d8b ++ "T" ++ d6b ++ "Z") ++ "_" ++ orb ++ fr).toList =
      "ECA".toList ++ '_' :: (fc.toList ++ '_' :: (pt.toList ++ '_' ::
        ((d8a.toList ++ 'T' :: (d6a.toList ++ ['Z'])) ++ '_' ::
          ((d8b.toList ++ 'T' :: (d6b.toList ++ ['Z'])) ++ '_' ::
            (orb.toList ++ (fr.toList ++ ([] : List Char))))))) := by
    simp only [toList_append_eq, lE, lE2, lU, lT, lZ, List.cons_append, List.nil_append,
      List.append_assoc, List.append_nil]
  have wfc := List.all_eq_true.mp hfcw
  have w8a := List.all_eq_true.mp h8ad
  have w6a := List.all_eq_true.mp h6ad
  have w8b := List.all_eq_true.mp h8bd
  have w6b := List.all_eq_true.mp h6bd
  have worb := List.all_eq_true.mp horbd
  have wfr := List.all_eq_true.mp hfru
  have wpt := List.all_eq_true.mp hpt
  have hbName : basename ("ECA_" ++ fc ++ "_" ++ pt ++ "_" ++ (d8a ++ "T" ++ d6a ++ "Z") ++
      "_" ++ (d8b ++ "T" ++ d6b ++ "Z") ++ "_" ++ orb ++ fr) =
      "ECA_" ++ fc ++ "_" ++ pt ++ "_" ++ (d8a ++ "T" ++ d6a ++ "Z") ++ "_" ++
      (d8b ++ "T" ++ d6b ++ "Z") ++ "_" ++ orb ++ fr := by
    apply basename_of_noSlash
    intro c hc
    rw [hshape] at hc
    simp only [List.mem_append, List.mem_cons, List.not_mem_nil, or_false] at hc
    rcases hc with hA | rfl | hB | rfl | hC | rfl |
      (h8 | rfl | h6 | rfl) | rfl | (h8 | rfl | h6 | rfl) | rfl | hF | hG
    · have hA2 : c = 'E' ∨ c = 'C' ∨ c = 'A' := by simpa using hA
      rcases hA2 with rfl | rfl | rfl <;> decide
    · decide
    · exact word_ne_slash (wfc c hB)
    · decide
    · simpa using wpt c hC
    · decide
    · exact digit_ne_slash (w8a c h8)
    · decide
    · exact digit_ne_slash (w6a c h6)
    · decide
    · decide
    · exact digit_ne_slash (w8b c h8)
    · decide
    · exact digit_ne_slash (w6b c h6)
    · decide
    · decide
    · exact digit_ne_slash (worb c hF)
    · exact upper_ne_slash (wfr c hG)
  have hbase := eca_base_mat pt ([] : List Char) hfc wfc h8a w8a h6a w6a h8b w8b h6b w6b
    horb worb hfr wfr
  have hsuf : (Regex.opt (.seq (slit ".ZIP") .endAnchor)).mat ([] : List Char) =
      some ([], []) := rfl
  have hfull := mat_seq_comp hbase hsuf
  have hts1 : (⟨d8a.toList ++ 'T' :: (d6a.toList ++ ['Z'])⟩ : String) =
      d8a ++ "T" ++ d6a ++ "Z" := by
    have hdata : (d8a ++ "T" ++ d6a ++ "Z").toList =
        d8a.toList ++ 'T' :: (d6a.toList ++ ['Z']) := by
      simp only [toList_append_eq, lT, lZ, List.append_assoc, List.cons_append,
        List.nil_append]
    calc (⟨d8a.toList ++ 'T' :: (d6a.toList ++ ['Z'])⟩ : String)
        = ⟨(d8a ++ "T" ++ d6a ++ "Z").toList⟩ := by rw [hdata]
      _ = d8a ++ "T" ++ d6a ++ "Z" := rfl
  have hts2 : (⟨d8b.toList ++ 'T' :: (d6b.toList ++ ['Z'])⟩ : String) =
      d8b ++ "T" ++ d6b ++ "Z" := by
    have hdata : (d8b ++ "T" ++ d6b ++ "Z").toList =
        d8b.toList ++ 'T' :: (d6b.toList ++ ['Z']) := by
      simp only [toList_append_eq, lT, lZ, List.append_assoc, List.cons_append,
        List.nil_append]
    calc (⟨d8b.toList ++ 'T' :: (d6b.toList ++ ['Z'])⟩ : String)
        = ⟨(d8b ++ "T" ++ d6b ++ "Z").toList⟩ := by rw [hdata]
      _ = d8b ++ "T" ++ d6b ++ "Z" := rfl
  rw [hts1, hts2] at hfull
  unfold EOFProduct.parse_filename
  rw [ec_pattern_flex, hbName, hshape, hfull]
  have hng : (Regex.seq (joinSep (ecaParts pt))
      (.opt (.seq (slit ".ZIP") .endAnchor))).namedGroups =
      ["file_class", "validity_start", "creation_date", "orbit_number", "frame_id"] := by
    simp [Regex.namedGroups, eca_base_namedGroups, optzip_namedGroups, ecaParts, joinSep,
      slit, namedGroups_slitL, tsRegex]
  rw [hng]
  rfl

/-- Round-trip of the `.EOF` (geolocation) `EarthCAREProduct` grammar. -/
theorem ec_eof_roundtrip (pt fc d8a d6a d8b d6b orb fr : String)
    (hpt : pt.toList.all (fun c => c ≠ '/') = true)
    (hfc : fc.toList.length = 4) (hfcw : fc.toList.all CClass.word.matches = true)
    (h8a : d8a.toList.length = 8) (h8ad : d8a.toList.all CClass.digit.matches = true)
    (h6a : d6a.toList.length = 6) (h6ad : d6a.toList.all CClass.digit.matches = true)
    (h8b : d8b.toList.length = 8) (h8bd : d8b.toList.all CClass.digit.matches = true)
    (h6b : d6b.toList.length = 6) (h6bd : d6b.toList.all CClass.digit.matches = true)
    (horb : orb.toList.length = 5) (horbd : orb.toList.all CClass.digit.matches = true)
    (hfr : fr.toList.length = 1) (hfru : fr.toList.all CClass.upper.matches = true) :
    (EarthCAREProduct pt (some ".EOF") none).parse_filename
      ("ECA_" ++ fc ++ "_" ++ pt ++ "_" ++ (d8a ++ "T" ++ d6a ++ "Z") ++ "_" ++
        (d8b ++ "T" ++ d6b ++ "Z") ++ "_" ++ orb ++ fr ++ ".EOF") =
      some [("file_class", some fc),
            ("validity_start", some (d8a ++ "T" ++ d6a ++ "Z")),
            ("creation_date", some (d8b ++ "T" ++ d6b ++ "Z")),
            ("orbit_number", some orb), ("frame_id", some fr)] := by
  have lE : ("ECA_" : String).toList = 'E' :: 'C' :: 'A' :: '_' :: [] := rfl
  have lE2 : ("ECA" : String).toList = 'E' :: 'C' :: 'A' :: [] := rfl
  have lU : ("_" : String).toList = ['_'] := rfl
  have lT : ("T" : String).toList = ['T'] := rfl
  have lZ : ("Z" : String).toList = ['Z'] := rfl
  have lF : (".EOF" : String).toList = ['.', 'E', 'O', 'F'] := rfl
  have hshape : ("ECA_" ++ fc ++ "_" ++ pt ++ "_" ++ (d8a ++ "T" ++ d6a ++ "Z") ++ "_" ++
      (d8b ++ "T" ++ d6b ++ "Z") ++ "_" ++ orb ++ fr ++ ".EOF").toList =
      "ECA".toList ++ '_' :: (fc.toList ++ '_' :: (pt.toList ++ '_' ::
        ((d8a.toList ++ 'T' :: (d6a.toList ++ ['Z'])) ++ '_' ::
          ((d8b.toList ++ 'T' :: (d6b.toList ++ ['Z'])) ++ '_' ::
            (orb.toList ++ (fr.toList ++ ['.', 'E', 'O', 'F'])))))) := by
    simp only [toList_append_eq, lE, lE2, lU, lT, lZ, lF, List.cons_append, List.nil_append,
      List.append_assoc, List.append_nil]
  have wfc := List.all_eq_true.mp hfcw
  have w8a := List.all_eq_true.mp h8ad
  have w6a := List.all_eq_true.mp h6ad
  have w8b := List.all_eq_true.mp h8bd
  have w6b := List.all_eq_true.mp h6bd
  have worb := List.all_eq_true.mp horbd
  have wfr := List.all_eq_true.mp hfru
  have wpt := List.all_eq_true.mp hpt
  have hbName : basename ("ECA_" ++ fc ++ "_" ++ pt ++ "_" ++ (d8a ++ "T" ++ d6a ++ "Z") ++
      "_" ++ (d8b ++ "T" ++ d6b ++ "Z") ++ "_" ++ orb ++ fr ++ ".EOF") =
      "ECA_" ++ fc ++ "_" ++ pt ++ "_" ++ (d8a ++ "T" ++ d6a ++ "Z") ++ "_" ++
      (d8b ++ "T" ++ d6b ++ "Z") ++ "_" ++ orb ++ fr ++ ".EOF" := by
    apply basename_of_noSlash
    intro c hc
    rw [hshape] at hc
    simp only [List.mem_append, List.mem_cons, List.not_mem_nil, or_false] at hc
    rcases hc with hA | rfl | hB | rfl | hC | rfl |
      (h8 | rfl | h6 | rfl) | rfl | (h8 | rfl | h6 | rfl) | rfl | hF |
      hG | rfl | rfl | rfl | rfl
    · have hA2 : c = 'E' ∨ c = 'C' ∨ c = 'A' := by simpa using hA
      rcases hA2 with rfl | rfl | rfl <;> decide
    · decide
    · exact word_ne_slash (wfc c hB)
    · decide
    · simpa using wpt c hC
    · decide
    · exact digit_ne_slash (w8a c h8)
    · decide
    · exact digit_ne_slash (w6a c h6)
    · decide
    · decide
    · exact digit_ne_slash (w8b c h8)
    · decide
    · exact digit_ne_slash (w6b c h6)
    · decide
    · decide
    · exact digit_ne_slash (worb c hF)
    · exact upper_ne_slash (wfr c hG)
    · decide
    · decide
    · decide
    · decide
  have hbase := eca_base_mat pt ['.', 'E', 'O', 'F'] hfc wfc h8a w8a h6a w6a h8b w8b h6b w6b
    horb worb hfr wfr
  have hsuf : (Regex.seq (.alt (slit ".EOF") (slit ".ZIP")) .endAnchor).mat
      ['.', 'E', 'O', 'F'] = some ([], []) := rfl
  have hfull := mat_seq_comp hbase hsuf
  have hts1 : (⟨d8a.toList ++ 'T' :: (d6a.toList ++ ['Z'])⟩ : String) =
      d8a ++ "T" ++ d6a ++ "Z" := by
    have hdata : (d8a ++ "T" ++ d6a ++ "Z").toList =
        d8a.toList ++ 'T' :: (d6a.toList ++ ['Z']) := by
      simp only [toList_append_eq, lT, lZ, List.append_assoc, List.cons_append,
        List.nil_append]
    calc (⟨d8a.toList ++ 'T' :: (d6a.toList ++ ['Z'])⟩ : String)
        = ⟨(d8a ++ "T" ++ d6a ++ "Z").toList⟩ := by rw [hdata]
      _ = d8a ++ "T" ++ d6a ++ "Z" := rfl
  have hts2 : (⟨d8b.toList ++ 'T' :: (d6b.toList ++ ['Z'])⟩ : String) =
      d8b ++ "T" ++ d6b ++ "Z" := by
    have hdata : (d8b ++ "T" ++ d6b ++ "Z").toList =
        d8b.toList ++ 'T' :: (d6b.toList ++ ['Z']) := by
      simp only [toList_append_eq, lT, lZ, List.append_assoc, List.cons_append,
        List.nil_append]
    calc (⟨d8b.toList ++ 'T' :: (d6b.toList ++ ['Z'])⟩ : String)
        = ⟨(d8b ++ "T" ++ d6b ++ "Z").toList⟩ := by rw [hdata]
      _ = d8b ++ "T" ++ d6b ++ "Z" := rfl
  rw [hts1, hts2] at hfull
  unfold EOFProduct.parse_filename
  rw [ec_pattern_eof, hbName, hshape, hfull]
  have hng : (Regex.seq (joinSep (ecaParts pt))
      (.seq (.alt (slit ".EOF") (slit ".ZIP")) .endAnchor)).namedGroups =
      ["file_class", "validity_start", "creation_date", "orbit_number", "frame_id"] := by
    simp [Regex.namedGroups, eca_base_namedGroups, altend_namedGroups, ecaParts, joinSep,
      slit, namedGroups_slitL, tsRegex]
  rw [hng]
  rfl

/-- Round-trip of the `AUXProduct` grammar on a synthesized filename. -/
theorem aux_roundtrip (pt fc d8a d6a d8b d6b ver : String)
    (hpt : pt.toList.all (fun c => c ≠ '/') = true)
    (hfc : fc.toList.length = 4) (hfcw : fc.toList.all CClass.word.matches = true)
    (h8a : d8a.toList.length = 8) (h8ad : d8a.toList.all CClass.digit.matches = true)
    (h6a : d6a.toList.length = 6) (h6ad : d6a.toList.all CClass.digit.matches = true)
    (h8b : d8b.toList.length = 8) (h8bd : d8b.toList.all CClass.digit.matches = true)
    (h6b : d6b.toList.length = 6) (h6bd : d6b.toList.all CClass.digit.matches = true)
    (hver : ver.toList.length = 4) (hverd : ver.toList.all CClass.digit.matches = true) :
    (AUXProduct pt none).parse_filename
      ("ECA_" ++ fc ++ "_" ++ pt ++ "_" ++ (d8a ++ "T" ++ d6a ++ "Z") ++ "_" ++
        (d8b ++ "T" ++ d6b ++ "Z") ++ "_" ++ ver ++ ".EOF") =
      some [("file_class", some fc),
            ("validity_start", some (d8a ++ "T" ++ d6a ++ "Z")),
            ("validity_stop", some (d8b ++ "T" ++ d6b ++ "Z")),
            ("version", some ver)] := by
  have lE : ("ECA_" : String).toList = 'E' :: 'C' :: 'A' :: '_' :: [] := rfl
  have lE2 : ("ECA" : String).toList = 'E' :: 'C' :: 'A' :: [] := rfl
  have lU : ("_" : String).toList = ['_'] := rfl
  have lT : ("T" : String).toList = ['T'] := rfl
  have lZ : ("Z" : String).toList = ['Z'] := rfl
  have lF : (".EOF" : String).toList = ['.', 'E', 'O', 'F'] := rfl
  have hshape : ("ECA_" ++ fc ++ "_" ++ pt ++ "_" ++ (d8a ++ "T" ++ d6a ++ "Z") ++ "_" ++
      (d8b ++ "T" ++ d6b ++ "Z") ++ "_" ++ ver ++ ".EOF").toList =
      "ECA".toList ++ '_' :: (fc.toList ++ '_' :: (pt.toList ++ '_' ::
        ((d8a.toList ++ 'T' :: (d6a.toList ++ ['Z'])) ++ '_' ::
          ((d8b.toList ++ 'T' :: (d6b.toList ++ ['Z'])) ++ '_' ::
            (ver.toList ++ ['.', 'E', 'O', 'F']))))) := by
    simp only [toList_append_eq, lE, lE2, lU, lT, lZ, lF, List.cons_append, List.nil_append,
      List.append_assoc, List.append_nil]
  have wfc := List.all_eq_true.mp hfcw
  have w8a := List.all_eq_true.mp h8ad
  have w6a := List.all_eq_true.mp h6ad
  have w8b := List.all_eq_true.mp h8bd
  have w6b := List.all_eq_true.mp h6bd
  have wver := List.all_eq_true.mp hverd
  have wpt := List.all_eq_true.mp hpt
  have hbName : basename ("ECA_" ++ fc ++ "_" ++ pt ++ "_" ++ (d8a ++ "T" ++ d6a ++ "Z") ++
      "_" ++ (d8b ++ "T" ++ d6b ++ "Z") ++ "_" ++ ver ++ ".EOF") =
      "ECA_" ++ fc ++ "_" ++ pt ++ "_" ++ (d8a ++ "T" ++ d6a ++ "Z") ++ "_" ++
      (d8b ++ "T" ++ d6b ++ "Z") ++ "_" ++ ver ++ ".EOF" := by
    apply basename_of_noSlash
    intro c hc
    rw [hshape] at hc
    simp only [List.mem_append, List.mem_cons, List.not_mem_nil, or_false] at hc
    rcases hc with hA | rfl | hB | rfl | hC | rfl |
      (h8 | rfl | h6 | rfl) | rfl | (h8 | rfl | h6 | rfl) | rfl |
      hV | rfl | rfl | rfl | rfl
    · have hA2 : c = 'E' ∨ c = 'C' ∨ c = 'A' := by simpa using hA
      rcases hA2 with rfl | rfl | rfl <;> decide
    · decide
    · exact word_ne_slash (wfc c hB)
    · decide
    · simpa using wpt c hC
    · decide
    · exact digit_ne_slash (w8a c h8)
    · decide
    · exact digit_ne_slash (w6a c h6)
    · decide
    · decide
    · exact digit_ne_slash (w8b c h8)
    · decide
    · exact digit_ne_slash (w6b c h6)
    · decide
    · decide
    · exact digit_ne_slash (wver c hV)
    · decide
    · decide
    · decide
    · decide
  have hbase := aux_base_mat pt ['.', 'E', 'O', 'F'] hfc wfc h8a w8a h6a w6a h8b w8b h6b w6b
    hver wver
  have hsuf : (Regex.seq (.alt (slit ".EOF") (slit ".ZIP")) .endAnchor).mat
      ['.', 'E', 'O', 'F'] = some ([], []) := rfl
  have hfull := mat_seq_comp hbase hsuf
  have hts1 : (⟨d8a.toList ++ 'T' :: (d6a.toList ++ ['Z'])⟩ : String) =
      d8a ++ "T" ++ d6a ++ "Z" := by
    have hdata : (d8a ++ "T" ++ d6a ++ "Z").toList =
        d8a.toList ++ 'T' :: (d6a.toList ++ ['Z']) := by
      simp only [toList_append_eq, lT, lZ, List.append_assoc, List.cons_append,
        List.nil_append]
    calc (⟨d8a.toList ++ 'T' :: (d6a.toList ++ ['Z'])⟩ : String)
        = ⟨(d8a ++ "T" ++ d6a ++ "Z").toList⟩ := by rw [hdata]
      _ = d8a ++ "T" ++ d6a ++ "Z" := rfl
  have hts2 : (⟨d8b.toList ++ 'T' :: (d6b.toList ++ ['Z'])⟩ : String) =
      d8b ++ "T" ++ d6b ++ "Z" := by
    have hdata : (d8b ++ "T" ++ d6b ++ "Z").toList =
        d8b.toList ++ 'T' :: (d6b.toList ++ ['Z']) := by
      simp only [toList_append_eq, lT, lZ, List.append_assoc, List.cons_append,
        List.nil_append]
    calc (⟨d8b.toList ++ 'T' :: (d6b.toList ++ ['Z'])⟩ : String)
        = ⟨(d8b ++ "T" ++ d6b ++ "Z").toList⟩ := by rw [hdata]
      _ = d8b ++ "T" ++ d6b ++ "Z" := rfl
  rw [hts1, hts2] at hfull
  unfold EOFProduct.parse_filename
  rw [aux_pattern, hbName, hshape, hfull]
  have hng : (Regex.seq (joinSep (auxParts pt))
      (.seq (.alt (slit ".EOF") (slit ".ZIP")) .endAnchor)).namedGroups =
      ["file_class", "validity_start", "validity_stop", "version"] := by
    simp [Regex.namedGroups, aux_base_namedGroups, altend_namedGroups, auxParts, joinSep,
      slit, namedGroups_slitL, tsRegex]
  rw [hng]
  rfl

/-- C6: for every registered product type, a filename synthesized from its
grammar with valid field values round-trips through the matcher:
`parse_filename` succeeds and the group map recovers exactly the field values
used.  The three conjuncts cover the three grammar shapes in the registry;
the fourth shows every registry entry is of one of these shapes. -/
theorem c6_grammar_roundtrip :
    (∀ pt ∈ L0_PRODUCT_TYPES ++ L1_PRODUCT_TYPES ++ L2_PRODUCT_TYPES,
      ∀ fc d8a d6a d8b d6b orb fr : String,
      fc.toList.length = 4 → fc.toList.all CClass.word.matches = true →
      d8a.toList.length = 8 → d8a.toList.all CClass.digit.matches = true →
      d6a.toList.length = 6 → d6a.toList.all CClass.digit.matches = true →
      d8b.toList.length = 8 → d8b.toList.all CClass.digit.matches = true →
      d6b.toList.length = 6 → d6b.toList.all CClass.digit.matches = true →
      orb.toList.length = 5 → orb.toList.all CClass.digit.matches = true →
      fr.toList.length = 1 → fr.toList.all CClass.upper.matches = true →
      (EarthCAREProduct pt none none).parse_filename
        ("ECA_" ++ fc ++ "_" ++ pt ++ "_" ++ (d8a ++ "T" ++ d6a ++ "Z") ++ "_" ++
          (d8b ++ "T" ++ d6b ++ "Z") ++ "_" ++ orb ++ fr) =
        some [("file_class", some fc),
              ("validity_start", some (d8a ++ "T" ++ d6a ++ "Z")),
              ("creation_date", some (d8b ++ "T" ++ d6b ++ "Z")),
              ("orbit_number", some orb), ("frame_id", some fr)]) ∧
    (∀ pt ∈ GEO_PRODUCT_TYPES,
      ∀ fc d8a d6a d8b d6b orb fr : String,
      fc.toList.length = 4 → fc.toList.all CClass.word.matches = true →
      d8a.toList.length = 8 → d8a.toList.all CClass.digit.matches = true →
      d6a.toList.length = 6 → d6a.toList.all CClass.digit.matches = true →
      d8b.toList.length = 8 → d8b.toList.all CClass.digit.matches = true →
      d6b.toList.length = 6 → d6b.toList.all CClass.digit.matches = true →
      orb.toList.length = 5 → orb.toList.all CClass.digit.matches = true →
      fr.toList.length = 1 → fr.toList.all CClass.upper.matches = true →
      (EarthCAREProduct pt (some ".EOF") none).parse_filename
        ("ECA_" ++ fc ++ "_" ++ pt ++ "_" ++ (d8a ++ "T" ++ d6a ++ "Z") ++ "_" ++
          (d8b ++ "T" ++ d6b ++ "Z") ++ "_" ++ orb ++ fr ++ ".EOF") =
        some [("file_class", some fc),
              ("validity_start", some (d8a ++ "T" ++ d6a ++ "Z")),
              ("creation_date", some (d8b ++ "T" ++ d6b ++ "Z")),
              ("orbit_number", some orb), ("frame_id", some fr)]) ∧
    (∀ pt ∈ FOS_PRODUCT_TYPES ++ MPL_PRODUCT_TYPES,
      ∀ fc d8a d6a d8b d6b ver : String,
      fc.toList.length = 4 → fc.toList.all CClass.word.matches = true →
      d8a.toList.length = 8 → d8a.toList.all CClass.digit.matches = true →
      d6a.toList.length = 6 → d6a.toList.all CClass.digit.matches = true →
      d8b.toList.length = 8 → d8b.toList.all CClass.digit.matches = true →
      d6b.toList.length = 6 → d6b.toList.all CClass.digit.matches = true →
      ver.toList.length = 4 → ver.toList.all CClass.digit.matches = true →
      (AUXProduct pt none).parse_filename
        ("ECA_" ++ fc ++ "_" ++ pt ++ "_" ++ (d8a ++ "T" ++ d6a ++ "Z") ++ "_" ++
          (d8b ++ "T" ++ d6b ++ "Z") ++ "_" ++ ver ++ ".EOF") =
        some [("file_class", some fc),
              ("validity_start", some (d8a ++ "T" ++ d6a ++ "Z")),
              ("validity_stop", some (d8b ++ "T" ++ d6b ++ "Z")),
              ("version", some ver)]) ∧
    (∀ e ∈ _product_types,
      (∃ pt ∈ L0_PRODUCT_TYPES ++ L1_PRODUCT_TYPES ++ L2_PRODUCT_TYPES,
        e = (pt, EarthCAREProduct pt none none)) ∨
      (∃ pt ∈ GEO_PRODUCT_TYPES, e = (pt, EarthCAREProduct pt (some ".EOF") none)) ∨
      (∃ pt ∈ FOS_PRODUCT_TYPES ++ MPL_PRODUCT_TYPES, e = (pt, AUXProduct pt none))) := by
  have hL : ((L0_PRODUCT_TYPES ++ L1_PRODUCT_TYPES ++ L2_PRODUCT_TYPES).all
      (fun pt => pt.toList.all (fun c => c ≠ '/'))) = true := by decide
  have hG : (GEO_PRODUCT_TYPES.all (fun pt => pt.toList.all (fun c => c ≠ '/'))) = true := by
    decide
  have hF : ((FOS_PRODUCT_TYPES ++ MPL_PRODUCT_TYPES).all
      (fun pt => pt.toList.all (fun c => c ≠ '/'))) = true := by decide
  refine ⟨?_, ?_, ?_, ?_⟩
  · intro pt hpt fc d8a d6a d8b d6b orb fr h1 h2 h3 h4 h5 h6 h7 h8 h9 h10 h11 h12 h13 h14
    exact ec_flex_roundtrip pt fc d8a d6a d8b d6b orb fr
      (List.all_eq_true.mp hL pt hpt) h1 h2 h3 h4 h5 h6 h7 h8 h9 h10 h11 h12 h13 h14
  · intro pt hpt fc d8a d6a d8b d6b orb fr h1 h2 h3 h4 h5 h6 h7 h8 h9 h10 h11 h12 h13 h14
    exact ec_eof_roundtrip pt fc d8a d6a d8b d6b orb fr
      (List.all_eq_true.mp hG pt hpt) h1 h2 h3 h4 h5 h6 h7 h8 h9 h10 h11 h12 h13 h14
  · intro pt hpt fc d8a d6a d8b d6b ver h1 h2 h3 h4 h5 h6 h7 h8 h9 h10 h11 h12
    exact aux_roundtrip pt fc d8a d6a d8b d6b ver
      (List.all_eq_true.mp hF pt hpt) h1 h2 h3 h4 h5 h6 h7 h8 h9 h10 h11 h12
  · intro e he
    simp only [_product_types, List.mem_append, List.mem_map] at he
    rcases he with ((((⟨pt, hpt, rfl⟩ | ⟨pt, hpt, rfl⟩) | ⟨pt, hpt, rfl⟩) | ⟨pt, hpt, rfl⟩) |
      ⟨pt, hpt, rfl⟩) | ⟨pt, hpt, rfl⟩
    · exact Or.inl ⟨pt, by simp [List.mem_append, hpt], rfl⟩
    · exact Or.inl ⟨pt, by simp [List.mem_append, hpt], rfl⟩
    · exact Or.inl ⟨pt, by simp [List.mem_append, hpt], rfl⟩
    · exact Or.inr (Or.inl ⟨pt, hpt, rfl⟩)
    · exact Or.inr (Or.inr ⟨pt, by simp [List.mem_append, hpt], rfl⟩)
    · exact Or.inr (Or.inr ⟨pt, by simp [List.mem_append, hpt], rfl⟩)

/-- Witness for C6: a concrete synthesized name of each family round-trips. -/
theorem c6_witness :
    (EarthCAREProduct "MSI_NOM_1B" none none).parse_filename
      ("ECA_" ++ "ABCD" ++ "_" ++ "MSI_NOM_1B" ++ "_" ++
        ("20230101" ++ "T" ++ "000000" ++ "Z") ++ "_" ++
        ("20230101" ++ "T" ++ "010000" ++ "Z") ++ "_" ++ "00001" ++ "A") =
      some [("file_class", some "ABCD"),
            ("validity_start", some ("20230101" ++ "T" ++ "000000" ++ "Z")),
            ("creation_date", some ("20230101" ++ "T" ++ "010000" ++ "Z")),
            ("orbit_number", some "00001"), ("frame_id", some "A")] ∧
    (AUXProduct "AUX_ORBPRE" none).parse_filename
      ("ECA_" ++ "ABCD" ++ "_" ++ "AUX_ORBPRE" ++ "_" ++
        ("20230101" ++ "T" ++ "000000" ++ "Z") ++ "_" ++
        ("99999999" ++ "T" ++ "999999" ++ "Z") ++ "_" ++ "0001" ++ ".EOF") =
      some [("file_class", some "ABCD"),
            ("validity_start", some ("20230101" ++ "T" ++ "000000" ++ "Z")),
            ("validity_stop", some ("99999999" ++ "T" ++ "999999" ++ "Z")),
            ("version", some "0001")] := by
  constructor
  · exact c6_grammar_roundtrip.1 "MSI_NOM_1B" (by decide) "ABCD" "20230101" "000000"
      "20230101" "010000" "00001" "A" (by decide) (by decide) (by decide) (by decide)
      (by decide) (by decide) (by decide) (by decide) (by decide) (by decide) (by decide)
      (by decide) (by decide) (by decide)
  · exact c6_grammar_roundtrip.2.2.1 "AUX_ORBPRE" (by decide) "ABCD" "20230101" "000000"
      "99999999" "999999" "0001" (by decide) (by decide) (by decide) (by decide)
      (by decide) (by decide) (by decide) (by decide) (by decide) (by decide) (by decide)
      (by decide)

/-- C1 (counterexample): the claim's concrete sidecar-header name
`ECAABCD_MSI_NOM_1B_...` lacks the underscore the grammar requires between
`ECA` and the file class (`^ECA_(?P<file_class>\w{4})_...`), so its basename
does not match the grammar at all and `identify` is false on the two-path
input — contradicting the claim's `identify returns true`. -/
theorem c1_counterexample :
    (EarthCAREProduct "MSI_NOM_1B" none none).parse_filename
      "ECAABCD_MSI_NOM_1B_20230101T000000Z_20230101T010000Z_00001A.HDR" = none ∧
    (EarthCAREProduct "MSI_NOM_1B" none none).identify
      [⟨"ECAABCD_MSI_NOM_1B_20230101T000000Z_20230101T010000Z_00001A.h5", false⟩,
       ⟨"ECAABCD_MSI_NOM_1B_20230101T000000Z_20230101T010000Z_00001A.HDR", false⟩] =
      some false := by
  exact ⟨by decide, by decide⟩

/-- C1 (amended): with the grammar's underscore after `ECA`, the end-to-end
scenario holds: `identify` is true for the data + sidecar-header pair of
`ECA_ABCD_MSI_NOM_1B_20230101T000000Z_20230101T010000Z_00001A.HDR`, and any
successful `analyze` on that path set yields `orbit_number = 1`,
`frame_id = "A"`, `file_class = "ABCD"` and `baseline = "CD"`. -/
theorem c1_end_to_end :
    (EarthCAREProduct "MSI_NOM_1B" none none).identify
      [⟨"ECA_ABCD_MSI_NOM_1B_20230101T000000Z_20230101T010000Z_00001A.h5", false⟩,
       ⟨"ECA_ABCD_MSI_NOM_1B_20230101T000000Z_20230101T010000Z_00001A.HDR", false⟩] =
      some true ∧
    ∀ (fs : XmlLocation → Option XmlNode) (props : Properties),
      (EarthCAREProduct "MSI_NOM_1B" none none).analyze
        ["ECA_ABCD_MSI_NOM_1B_20230101T000000Z_20230101T010000Z_00001A.h5",
         "ECA_ABCD_MSI_NOM_1B_20230101T000000Z_20230101T010000Z_00001A.HDR"]
        false fs = some props →
      props.earthcare.orbit_number = some 1 ∧ props.earthcare.frame_id = some "A" ∧
      props.earthcare.file_class = some "ABCD" ∧ props.earthcare.baseline = some "CD" := by
  constructor
  · decide
  · intro fs props h
    obtain ⟨p0, rest, attrs, vs, vstart, vstop, fcb, vn, orbn, props0, heq, hparse, hlvs,
      hvst, hstop, hfcb, hver, horb, hprops0, hfin⟩ := analyze_inversion h
    injection heq with he1 he2
    subst he1
    subst he2
    have hpv : (EarthCAREProduct "MSI_NOM_1B" none none).parse_filename
        (basename (if (("ECA_ABCD_MSI_NOM_1B_20230101T000000Z_20230101T010000Z_00001A.h5" :
            String) ::
          ["ECA_ABCD_MSI_NOM_1B_20230101T000000Z_20230101T010000Z_00001A.HDR"]).length > 1
          then (splitext
            "ECA_ABCD_MSI_NOM_1B_20230101T000000Z_20230101T010000Z_00001A.h5").1 ++ ".HDR"
          else "ECA_ABCD_MSI_NOM_1B_20230101T000000Z_20230101T010000Z_00001A.h5")) =
        some [("file_class", some "ABCD"), ("validity_start", some "20230101T000000Z"),
              ("creation_date", some "20230101T010000Z"), ("orbit_number", some "00001"),
              ("frame_id", some "A")] := by decide
    have hattrs : attrs = [("file_class", some "ABCD"),
        ("validity_start", some "20230101T000000Z"),
        ("creation_date", some "20230101T010000Z"), ("orbit_number", some "00001"),
        ("frame_id", some "A")] := Option.some.inj (hparse.symm.trans hpv)
    subst hattrs
    have hfcb2 : fcb = (some "ABCD", some "CD") := by
      have : fieldFileClass [("file_class", some "ABCD"),
          ("validity_start", some "20230101T000000Z"),
          ("creation_date", some "20230101T010000Z"), ("orbit_number", some "00001"),
          ("frame_id", some "A")] = some ((some "ABCD", some "CD")) := by decide
      rw [this] at hfcb
      exact (Option.some.inj hfcb).symm
    have horb2 : orbn = some 1 := by
      have : fieldIntAttr "orbit_number" [("file_class", some "ABCD"),
          ("validity_start", some "20230101T000000Z"),
          ("creation_date", some "20230101T010000Z"), ("orbit_number", some "00001"),
          ("frame_id", some "A")] = some (some 1) := by decide
      rw [this] at horb
      exact (Option.some.inj horb).symm
    subst hfcb2
    subst horb2
    rw [if_neg (by decide)] at hfin
    obtain ⟨root, -, hh⟩ := hfin
    have hpres := analyze_eof_header_preserves hh
    refine ⟨?_, ?_, ?_, ?_⟩
    · rw [hpres.2.2.2.1, hprops0]
    · rw [hpres.2.2.2.2.1, hprops0]
      rfl
    · rw [hpres.2.1, hprops0]
    · rw [hpres.2.2.1, hprops0]

/-- Witness for the amended C1: with a concrete valid header document the
full `analyze` succeeds and carries the four filename-derived fields. -/
theorem c1_witness :
    ∃ props,
      (EarthCAREProduct "MSI_NOM_1B" none none).analyze
        ["ECA_ABCD_MSI_NOM_1B_20230101T000000Z_20230101T010000Z_00001A.h5",
         "ECA_ABCD_MSI_NOM_1B_20230101T000000Z_20230101T010000Z_00001A.HDR"]
        false
        (fun _ => some (XmlNode.elem "Earth_Explorer_File" none
          [XmlNode.elem "Earth_Explorer_Header" none
            [XmlNode.elem "Fixed_Header" none
              [XmlNode.elem "Validity_Period" none
                [XmlNode.elem "Validity_Start" (some "UTC=2023-01-01T00:00:00") [],
                 XmlNode.elem "Validity_Stop" (some "UTC=2023-01-01T01:00:00") []],
               XmlNode.elem "Source" none
                [XmlNode.elem "Creation_Date" (some "UTC=2023-01-02T00:00:00") [],
                 XmlNode.elem "System" (some "PDGS") [],
                 XmlNode.elem "Creator" (some "ECGP") [],
                 XmlNode.elem "Creator_Version" (some "1.0") []]]]])) = some props ∧
      props.earthcare.orbit_number = some 1 ∧ props.earthcare.frame_id = some "A" ∧
      props.earthcare.file_class = some "ABCD" ∧ props.earthcare.baseline = some "CD" := by
  obtain ⟨props, hp⟩ := Option.isSome_iff_exists.mp
    (show ((EarthCAREProduct "MSI_NOM_1B" none none).analyze
        ["ECA_ABCD_MSI_NOM_1B_20230101T000000Z_20230101T010000Z_00001A.h5",
         "ECA_ABCD_MSI_NOM_1B_20230101T000000Z_20230101T010000Z_00001A.HDR"]
        false
        (fun _ => some (XmlNode.elem "Earth_Explorer_File" none
          [XmlNode.elem "Earth_Explorer_Header" none
            [XmlNode.elem "Fixed_Header" none
              [XmlNode.elem "Validity_Period" none
                [XmlNode.elem "Validity_Start" (some "UTC=2023-01-01T00:00:00") [],
                 XmlNode.elem "Validity_Stop" (some "UTC=2023-01-01T01:00:00") []],
               XmlNode.elem "Source" none
                [XmlNode.elem "Creation_Date" (some "UTC=2023-01-02T00:00:00") [],
                 XmlNode.elem "System" (some "PDGS") [],
                 XmlNode.elem "Creator" (some "ECGP") [],
                 XmlNode.elem "Creator_Version" (some "1.0") []]]]]))).isSome = true
      from by decide)
  exact ⟨props, hp, c1_end_to_end.2 _ props hp⟩
